import Mathlib

/-
  Verification of the MyFS in-memory filesystem (repository OS_assignment3,
  src/implementation.c).

  The file `implementation.c` contains two generations of the code base,
  concatenated.  The current generation (second half of the file) is built on
  the `fs_info_block` / `inode` / `directory_entry` data model with a
  superblock, an inode bitmap, a block bitmap, an inode table and a data-block
  region; it is embedded below in namespace `MyFS`.  The first generation
  (first half of the file) is built on the older `myfs_header` / `myfs_dir` /
  `myfs_file` model; the parts of it that the claims refer to (its read
  operation) are embedded in namespace `OldFS`.

  The byte buffer handed to the C code is modelled one region at a time:
  the superblock is a record, the two bitmaps are byte maps (byte index to
  byte value), the inode table is a map from byte offset to inode record,
  directory data blocks are maps from (block byte offset, entry index) to
  directory entries, and file data is a map from absolute byte offset to byte
  value.  All cross references are byte offsets, exactly as in the C code.
  Machine integers are modelled as Nat (sizes, offsets) and Int (times,
  signed off_t where the code tests the sign).
-/

namespace MyFS

/-! ## Constants (implementation.c, second generation: `#define`s and sizeofs) -/

def FS_ID : Nat := 0x4D595346
def BLOCK_SIZE : Nat := 4096
def INODE_SIZE : Nat := 128
def MAX_FILENAME : Nat := 255
def MAX_INODES : Nat := 1024
def MAX_DATA_BLOCKS : Nat := 2528

/-- sizeof(fs_info_block): uint32_t plus padding plus seven size_t fields. -/
def SIZEOF_INFO : Nat := 64

/-- sizeof(directory_entry): char name[256] plus a size_t inode offset. -/
def SIZEOF_DIRENT : Nat := 264

/-- S_IFDIR bit of mode_t. -/
def S_IFDIR : Nat := 0x4000

/-- S_IFREG bit of mode_t. -/
def S_IFREG : Nat := 0x8000

/-! Errno values used by the code. -/

def ENOENT : Nat := 2
def EIO : Nat := 5
def EFAULT : Nat := 14
def EEXIST : Nat := 17
def ENOTDIR : Nat := 20
def EISDIR : Nat := 21
def EINVAL : Nat := 22
def EFBIG : Nat := 27
def ENOSPC : Nat := 28
def ENOTEMPTY : Nat := 39

/-! ## Data model -/

/-- C struct fs_info_block, the superblock at offset 0. -/
structure fs_info_block where
  fs_id : Nat
  size : Nat
  root_inode : Nat
  free_inode_bitmap : Nat
  free_block_bitmap : Nat
  inode_table : Nat
  data_blocks : Nat
  max_data_blocks : Nat
deriving DecidableEq

/-- C struct inode. -/
structure inode where
  mode : Nat
  uid : Nat
  gid : Nat
  size : Nat
  access_time : Int
  modification_time : Int
  change_time : Int
  data_block : Nat
deriving DecidableEq

/-- C struct directory_entry; the name is the NUL-terminated prefix of
`char name[256]`, modelled as a list of characters. -/
structure directory_entry where
  name : List Char
  inode_offset : Nat
deriving DecidableEq

/-- zeroed inode record (memset 0). -/
def zeroInode : inode := ⟨0, 0, 0, 0, 0, 0, 0, 0⟩

/-- zeroed directory entry (memset 0). -/
def zeroEntry : directory_entry := ⟨[], 0⟩

/-- The filesystem buffer, viewed region by region.
`inode_bitmap`/`block_bitmap` map a byte index inside the bitmap to the byte
value; `inodes` maps a byte offset (from the buffer start) to the inode
record stored there; `dirents blk i` is the i-th directory entry of the data
block at byte offset `blk`; `fileBytes` maps an absolute byte offset to the
byte stored there. -/
structure FS where
  info : fs_info_block
  inode_bitmap : Nat → Nat
  block_bitmap : Nat → Nat
  inodes : Nat → inode
  dirents : Nat → Nat → directory_entry
  fileBytes : Nat → Nat

/-- pointwise store to a one-dimensional map (a single memory write). -/
def wr {α : Type} (f : Nat → α) (k : Nat) (v : α) : Nat → α :=
  fun x => if x = k then v else f x

/-- pointwise store to a two-dimensional map. -/
def wr2 {α : Type} (f : Nat → Nat → α) (b i : Nat) (v : α) : Nat → Nat → α :=
  fun x y => if x = b ∧ y = i then v else f x y

theorem wr_same {α : Type} (f : Nat → α) (k : Nat) (v : α) : wr f k v k = v := by
  simp [wr]

theorem wr_other {α : Type} (f : Nat → α) (k : Nat) (v : α) {x : Nat} (h : x ≠ k) :
    wr f k v x = f x := by
  simp [wr, h]

theorem wr2_same {α : Type} (f : Nat → Nat → α) (b i : Nat) (v : α) :
    wr2 f b i v b i = v := by
  simp [wr2]

theorem wr2_other {α : Type} (f : Nat → Nat → α) (b i : Nat) (v : α) {x y : Nat}
    (h : ¬(x = b ∧ y = i)) : wr2 f b i v x y = f x y := by
  simp only [wr2, if_neg h]

/-! ## init_fs (implementation.c, `static int init_fs`) -/

/-- `init_fs(fsptr, fssize)`: if the magic tag is present the call returns 1
without touching the buffer; otherwise it lays out the volume, writes the
root inode and its `.`/`..` entries, zeroes both bitmaps and marks inode
slot 0 and data block 0 used.  `uid`, `gid` and `t` stand for the values of
`getuid()`, `getgid()` and `time(NULL)` during the call. -/
def init_fs (s : FS) (fssize uid gid : Nat) (t : Int) : Bool × FS :=
  if s.info.fs_id = FS_ID then (true, s)
  else
    let root_off := SIZEOF_INFO
    let ib_off := root_off + INODE_SIZE
    let bb_off := ib_off + MAX_INODES / 8
    let it_off := bb_off + MAX_DATA_BLOCKS / 8
    let db_off := it_off + MAX_INODES * INODE_SIZE
    let info' : fs_info_block :=
      ⟨FS_ID, fssize, root_off, ib_off, bb_off, it_off, db_off, MAX_DATA_BLOCKS⟩
    let root : inode :=
      { mode := S_IFDIR ||| 0o755, uid := uid, gid := gid,
        size := 2 * SIZEOF_DIRENT,
        access_time := t, modification_time := t, change_time := t,
        data_block := db_off }
    (true,
      { info := info'
        inode_bitmap := fun b => if b < MAX_INODES / 8 then (if b = 0 then 1 else 0)
          else s.inode_bitmap b
        block_bitmap := fun b => if b < MAX_DATA_BLOCKS / 8 then (if b = 0 then 1 else 0)
          else s.block_bitmap b
        inodes := wr s.inodes root_off root
        dirents := wr2 (wr2 s.dirents db_off 0 ⟨['.'], root_off⟩) db_off 1 ⟨['.', '.'], root_off⟩
        fileBytes := s.fileBytes })

theorem init_fs_noop {s : FS} (h : s.info.fs_id = FS_ID) (fssize uid gid : Nat) (t : Int) :
    init_fs s fssize uid gid t = (true, s) := by
  simp [init_fs, h]

theorem init_fs_id (s : FS) (fssize uid gid : Nat) (t : Int) :
    ((init_fs s fssize uid gid t).2).info.fs_id = FS_ID := by
  by_cases h : s.info.fs_id = FS_ID
  · simp [init_fs, h]
  · simp [init_fs, h]

/-! ## Path handling

`find_inode` tokenizes the path with `strtok(path_cpy, "/")`, which splits on
runs of slashes and never yields an empty component; `tokenize` models that.
`split_path` locates the final slash with `strrchr`. -/

def tokenizeAux : List Char → List Char → List (List Char)
  | [], acc => if acc = [] then [] else [acc.reverse]
  | c :: rest, acc =>
    if c = '/' then
      (if acc = [] then tokenizeAux rest [] else acc.reverse :: tokenizeAux rest [])
    else tokenizeAux rest (c :: acc)

def tokenize (p : List Char) : List (List Char) := tokenizeAux p []

/-- index of the last slash in the path, as computed by `strrchr`. -/
def lastSlash : List Char → Option Nat
  | [] => none
  | c :: rest =>
    match lastSlash rest with
    | some i => some (i + 1)
    | none => if c = '/' then some 0 else none

/-- `split_path(path, &parent, &base)`: fails when the path has no slash;
when the last slash is the first character the parent is "/"; otherwise the
parent is everything before the last slash, the base everything after. -/
def split_path (p : List Char) : Option (List Char × List Char) :=
  match lastSlash p with
  | none => none
  | some i =>
    if i = 0 then some (['/'], p.drop 1)
    else some (p.take i, p.drop (i + 1))

/-! ## Directory lookup and path walk (implementation.c, `find_inode`) -/

/-- scan of a directory's packed entry array for a name: the first matching
entry's inode offset, as in the loop inside `find_inode`. -/
def dirScan (s : FS) (blk : Nat) (name : List Char) : List Nat → Option Nat
  | [] => none
  | i :: rest =>
    if (s.dirents blk i).name = name then some (s.dirents blk i).inode_offset
    else dirScan s blk name rest

/-- lookup of `name` among the `size / sizeof(directory_entry)` entries of a
directory inode's data block. -/
def dirLookup (s : FS) (nd : inode) (name : List Char) : Option Nat :=
  dirScan s nd.data_block name (List.range (nd.size / SIZEOF_DIRENT))

/-- the token-walking loop of `find_inode`: before each lookup the current
inode must be a directory; an unmatched component aborts with NULL. -/
def walk (s : FS) (off : Nat) : List (List Char) → Option Nat
  | [] => some off
  | tok :: rest =>
    if (s.inodes off).mode &&& S_IFDIR = 0 then none
    else
      match dirLookup s (s.inodes off) tok with
      | none => none
      | some child => walk s child rest

/-- `find_inode(fsptr, fssize, path, &off)`: "/" resolves to the root inode
directly; otherwise the tokenized path is walked from the root. -/
def find_inode (s : FS) (p : List Char) : Option Nat :=
  if p = ['/'] then some s.info.root_inode
  else walk s s.info.root_inode (tokenize p)

/-- offsets whose inode records are read while walking a token list; the
final inode reached is not read by the walk itself. -/
def walkReads (s : FS) (off : Nat) : List (List Char) → List Nat
  | [] => []
  | tok :: rest =>
    if (s.inodes off).mode &&& S_IFDIR = 0 then [off]
    else
      match dirLookup s (s.inodes off) tok with
      | none => [off]
      | some child => off :: walkReads s child rest

/-! ## Bitmap allocators -/

/-- inner bit loop of `find_free_inode`, over a list of bit positions; the
`inode_num >= MAX_INODES` test breaks out of the loop. -/
def scanBitsInode (v byte : Nat) : List Nat → Option Nat
  | [] => none
  | bit :: rest =>
    if byte * 8 + bit ≥ MAX_INODES then none
    else if v &&& (1 <<< bit) = 0 then some (byte * 8 + bit)
    else scanBitsInode v byte rest

/-- outer byte loop of `find_free_inode`: bytes equal to 0xFF are skipped. -/
def inodeByteScan (s : FS) : List Nat → Option Nat
  | [] => none
  | byte :: rest =>
    if s.inode_bitmap byte = 255 then inodeByteScan s rest
    else
      match scanBitsInode (s.inode_bitmap byte) byte (List.range 8) with
      | some r => some r
      | none => inodeByteScan s rest

/-- the slot number found by `find_free_inode`'s double loop. -/
def find_free_inode_slot (s : FS) : Option Nat :=
  inodeByteScan s (List.range (MAX_INODES / 8))

/-- `find_free_inode(fsptr, fssize)`: NULL bitmap pointer fails; otherwise the
first free slot's bit is set and the slot's inode-table offset returned. -/
def find_free_inode (s : FS) (fssize : Nat) : Option Nat × FS :=
  if s.info.free_inode_bitmap ≥ fssize then (none, s)
  else
    match find_free_inode_slot s with
    | none => (none, s)
    | some k =>
      (some (s.info.inode_table + k * INODE_SIZE),
        { s with inode_bitmap :=
                   wr s.inode_bitmap (k / 8) (s.inode_bitmap (k / 8) ||| (1 <<< (k % 8))) })

/-- block loop of `find_free_data_block`: first block number whose bitmap bit
is clear. -/
def scanBlocks (s : FS) : List Nat → Option Nat
  | [] => none
  | bn :: rest =>
    if s.block_bitmap (bn / 8) &&& (1 <<< (bn % 8)) = 0 then some bn
    else scanBlocks s rest

/-- `find_free_data_block(fsptr, fssize)`: NULL bitmap pointer fails;
otherwise the first free block's bit is set and its byte offset returned. -/
def find_free_data_block (s : FS) (fssize : Nat) : Option Nat × FS :=
  if s.info.free_block_bitmap ≥ fssize then (none, s)
  else
    match scanBlocks s (List.range s.info.max_data_blocks) with
    | none => (none, s)
    | some bn =>
      (some (s.info.data_blocks + bn * BLOCK_SIZE),
        { s with block_bitmap :=
                   wr s.block_bitmap (bn / 8) (s.block_bitmap (bn / 8) ||| (1 <<< (bn % 8))) })

/-- `bitmap[i/8] &= ~(1 << (i%8))` on a byte value below 256. -/
def clearBit (v bit : Nat) : Nat := v &&& (255 ^^^ (1 <<< bit))

/-- `free_data_block(fsptr, fssize, block_offset)`: validates the offset and
clears the block's bitmap bit. -/
def free_data_block (s : FS) (fssize block_offset : Nat) : Option FS :=
  if block_offset < s.info.data_blocks ∨ block_offset ≥ fssize then none
  else
    let bn := (block_offset - s.info.data_blocks) / BLOCK_SIZE
    if bn ≥ s.info.max_data_blocks then none
    else some { s with
                block_bitmap := wr s.block_bitmap (bn / 8) (clearBit (s.block_bitmap (bn / 8)) (bn % 8)) }

/-- the rollback fragment repeated in mknod/mkdir: recompute the slot from the
inode offset and clear its bitmap bit when the slot number is in range. -/
def clear_inode_bit (s : FS) (inode_off : Nat) : FS :=
  let k := (inode_off - s.info.inode_table) / INODE_SIZE
  if k < MAX_INODES then
    { s with inode_bitmap := wr s.inode_bitmap (k / 8) (clearBit (s.inode_bitmap (k / 8)) (k % 8)) }
  else s

/-! ## Directory entry insertion and removal -/

/-- `strncpy(dst, name, MAX_FILENAME - 1)` followed by
`dst[MAX_FILENAME - 1] = 0`: the stored name is the 254-character prefix. -/
def truncName (name : List Char) : List Char := name.take (MAX_FILENAME - 1)

/-- `add_dir_entry`: fails when the block already holds
`BLOCK_SIZE / sizeof(directory_entry)` entries or the new entry's address is
out of bounds; otherwise the entry is appended at position `entry_count` and
the directory's size and m/c-times are updated. -/
def add_dir_entry (s : FS) (fssize dir_off : Nat) (name : List Char) (child : Nat)
    (t : Int) : Option FS :=
  let d := s.inodes dir_off
  let n := d.size / SIZEOF_DIRENT
  if n ≥ BLOCK_SIZE / SIZEOF_DIRENT then none
  else if d.data_block + n * SIZEOF_DIRENT ≥ fssize then none
  else some
    { s with
      dirents := wr2 s.dirents d.data_block n ⟨truncName name, child⟩
      inodes := wr s.inodes dir_off
        { d with size := d.size + SIZEOF_DIRENT, modification_time := t, change_time := t } }

/-- index of the first entry matching `name`, as scanned by
`remove_dir_entry`. -/
def findEntryIdx (s : FS) (blk : Nat) (name : List Char) (n : Nat) : Option Nat :=
  (List.range n).find? (fun i => (s.dirents blk i).name = name)

/-- `remove_dir_entry`: NULL entries pointer or a missing name fails; a found
entry is removed by shifting all later entries one slot left, zeroing the
vacated last slot, shrinking the directory size and touching its times. -/
def remove_dir_entry (s : FS) (fssize dir_off : Nat) (name : List Char) (t : Int) :
    Option FS :=
  let d := s.inodes dir_off
  if d.data_block ≥ fssize then none
  else
    let n := d.size / SIZEOF_DIRENT
    match findEntryIdx s d.data_block name n with
    | none => none
    | some idx => some
      { s with
        dirents := fun b i =>
          if b = d.data_block then
            (if idx ≤ i ∧ i < n - 1 then s.dirents b (i + 1)
             else if i = n - 1 then zeroEntry
             else s.dirents b i)
          else s.dirents b i
        inodes := wr s.inodes dir_off
          { d with size := d.size - SIZEOF_DIRENT, modification_time := t, change_time := t } }

/-! ## Operations (second-generation `__myfs_*_implem` functions)

Every operation first calls `init_fs`.  `uid`, `gid` and `t` stand for
`getuid()`, `getgid()` and `time(NULL)`.  A result `(Except.error e, s')`
models `return -1` with `*errnoptr = e` and final buffer contents `s'`. -/

/-- the stat fields populated by `__myfs_getattr_implem`. -/
structure Stat where
  st_uid : Nat
  st_gid : Nat
  st_mode : Nat
  st_size : Nat
  st_atime : Int
  st_mtime : Int
  st_ctime : Int
  st_nlink : Nat
deriving DecidableEq

/-- `__myfs_getattr_implem`. -/
def «__myfs_getattr_implem» (s0 : FS) (fssize uid gid : Nat) (t : Int) (p : List Char) :
    Except Nat Stat × FS :=
  let s := (init_fs s0 fssize uid gid t).2
  match find_inode s p with
  | none => (.error ENOENT, s)
  | some off =>
    let nd := s.inodes off
    if nd.mode &&& S_IFDIR ≠ 0 then
      (.ok { st_uid := nd.uid, st_gid := nd.gid, st_mode := nd.mode, st_size := nd.size,
             st_atime := nd.access_time, st_mtime := nd.modification_time,
             st_ctime := nd.change_time, st_nlink := nd.size / SIZEOF_DIRENT }, s)
    else if nd.mode &&& S_IFREG ≠ 0 then
      (.ok { st_uid := nd.uid, st_gid := nd.gid, st_mode := nd.mode, st_size := nd.size,
             st_atime := nd.access_time, st_mtime := nd.modification_time,
             st_ctime := nd.change_time, st_nlink := 1 }, s)
    else (.error EINVAL, s)

/-- does the scan in mknod/mkdir find `name` among the first `n` entries? -/
def nameInDir (s : FS) (blk : Nat) (name : List Char) (n : Nat) : Bool :=
  (List.range n).any (fun i => (s.dirents blk i).name = name)

/-- `__myfs_mknod_implem`: create a zero-length regular file. -/
def «__myfs_mknod_implem» (s0 : FS) (fssize uid gid : Nat) (t : Int) (p : List Char) :
    Except Nat Unit × FS :=
  let s := (init_fs s0 fssize uid gid t).2
  match split_path p with
  | none => (.error EINVAL, s)
  | some (pp, leaf) =>
    match find_inode s pp with
    | none => (.error ENOENT, s)
    | some parent_off =>
      let parent := s.inodes parent_off
      if parent.mode &&& S_IFDIR = 0 then (.error ENOTDIR, s)
      else if parent.data_block ≥ fssize then (.error EIO, s)
      else if nameInDir s parent.data_block leaf (parent.size / SIZEOF_DIRENT) then
        (.error EEXIST, s)
      else
        match find_free_inode s fssize with
        | (none, _) => (.error ENOSPC, (find_free_inode s fssize).2)
        | (some new_off, s1) =>
          if new_off ≥ fssize then (.error EIO, clear_inode_bit s1 new_off)
          else
            let fileInode : inode :=
              { mode := S_IFREG ||| 0o644, uid := uid, gid := gid, size := 0,
                access_time := t, modification_time := t, change_time := t, data_block := 0 }
            let s2 := { s1 with inodes := wr s1.inodes new_off fileInode }
            match add_dir_entry s2 fssize parent_off leaf new_off t with
            | none =>
              let s3 := clear_inode_bit s2 new_off
              (.error ENOSPC, { s3 with inodes := wr s3.inodes new_off zeroInode })
            | some s3 => (.ok (), s3)

/-- `__myfs_unlink_implem`: delete a regular file. -/
def «__myfs_unlink_implem» (s0 : FS) (fssize uid gid : Nat) (t : Int) (p : List Char) :
    Except Nat Unit × FS :=
  let s := (init_fs s0 fssize uid gid t).2
  match split_path p with
  | none => (.error EINVAL, s)
  | some (pp, leaf) =>
    match find_inode s pp with
    | none => (.error ENOENT, s)
    | some parent_off =>
      let parent := s.inodes parent_off
      if parent.mode &&& S_IFDIR = 0 then (.error ENOTDIR, s)
      else if parent.data_block ≥ fssize then (.error EIO, s)
      else
        match findEntryIdx s parent.data_block leaf (parent.size / SIZEOF_DIRENT) with
        | none => (.error ENOENT, s)
        | some idx =>
          let target_off := (s.dirents parent.data_block idx).inode_offset
          if target_off ≥ fssize then (.error EIO, s)
          else if (s.inodes target_off).mode &&& S_IFREG = 0 then (.error EISDIR, s)
          else
            match remove_dir_entry s fssize parent_off leaf t with
            | none => (.error EIO, s)
            | some s1 =>
              if s1.info.free_inode_bitmap ≥ fssize then (.error EIO, s1)
              else
                let inode_num := (target_off - s1.info.inode_table) / INODE_SIZE
                if inode_num ≥ MAX_INODES then (.error EIO, s1)
                else
                  let s2 := { s1 with inode_bitmap := wr s1.inode_bitmap (inode_num / 8) (clearBit (s1.inode_bitmap (inode_num / 8)) (inode_num % 8)) }
                  if (s2.inodes target_off).data_block ≠ 0 then
                    match free_data_block s2 fssize (s2.inodes target_off).data_block with
                    | none => (.error EIO, s2)
                    | some s3 => (.ok (), { s3 with inodes := wr s3.inodes target_off zeroInode })
                  else (.ok (), { s2 with inodes := wr s2.inodes target_off zeroInode })

/-- `__myfs_mkdir_implem`: create a directory with `.`/`..` entries and one
data block, rolling the inode and block allocations back when a later step
fails. -/
def «__myfs_mkdir_implem» (s0 : FS) (fssize uid gid : Nat) (t : Int) (p : List Char) :
    Except Nat Unit × FS :=
  let s := (init_fs s0 fssize uid gid t).2
  match split_path p with
  | none => (.error EINVAL, s)
  | some (pp, leaf) =>
    match find_inode s pp with
    | none => (.error ENOENT, s)
    | some parent_off =>
      let parent := s.inodes parent_off
      if parent.mode &&& S_IFDIR = 0 then (.error ENOTDIR, s)
      else if parent.data_block ≥ fssize then (.error EIO, s)
      else if nameInDir s parent.data_block leaf (parent.size / SIZEOF_DIRENT) then
        (.error EEXIST, s)
      else
        match find_free_inode s fssize with
        | (none, _) => (.error ENOSPC, (find_free_inode s fssize).2)
        | (some new_off, s1) =>
          if new_off ≥ fssize then (.error EIO, clear_inode_bit s1 new_off)
          else
            match find_free_data_block s1 fssize with
            | (none, _) =>
              let s2 := clear_inode_bit s1 new_off
              (.error ENOSPC, { s2 with inodes := wr s2.inodes new_off zeroInode })
            | (some blk_off, s2) =>
              let dirInode : inode :=
                { mode := S_IFDIR ||| 0o755, uid := uid, gid := gid, size := 0,
                  access_time := t, modification_time := t, change_time := t,
                  data_block := blk_off }
              let s3 := { s2 with inodes := wr s2.inodes new_off dirInode }
              if blk_off ≥ fssize then
                let s4 := (free_data_block s3 fssize blk_off).getD s3
                let s5 := clear_inode_bit s4 new_off
                (.error EIO, { s5 with inodes := wr s5.inodes new_off zeroInode })
              else
                let s4 := { s3 with
                  dirents := wr2 (wr2 s3.dirents blk_off 0 ⟨['.'], new_off⟩) blk_off 1
                    ⟨['.', '.'], parent_off⟩
                  inodes := wr s3.inodes new_off { dirInode with size := 2 * SIZEOF_DIRENT } }
                match add_dir_entry s4 fssize parent_off leaf new_off t with
                | none =>
                  let s5 := (free_data_block s4 fssize blk_off).getD s4
                  let s6 := clear_inode_bit s5 new_off
                  (.error ENOSPC, { s6 with inodes := wr s6.inodes new_off zeroInode })
                | some s5 => (.ok (), s5)

/-- `memcpy(dst + start, buf, buf.length)` into a byte map. -/
def writeBytes (f : Nat → Nat) (start : Nat) : List Nat → Nat → Nat
  | [] => f
  | b :: rest => writeBytes (wr f start b) (start + 1) rest

/-- `__myfs_write_implem`: the requested byte count is `buf.length`; the
`off_t` offset is modelled as a Nat (the code never tests its sign and the
claims concern the non-negative range).  Note the data block is allocated
before the one-block capacity check. -/
def «__myfs_write_implem» (s0 : FS) (fssize uid gid : Nat) (t : Int) (p : List Char)
    (buf : List Nat) (off : Nat) : Except Nat Nat × FS :=
  let s := (init_fs s0 fssize uid gid t).2
  match find_inode s p with
  | none => (.error ENOENT, s)
  | some ioff =>
    if (s.inodes ioff).mode &&& S_IFREG = 0 then (.error EINVAL, s)
    else
      match
        (if (s.inodes ioff).data_block = 0 then
          match find_free_data_block s fssize with
          | (none, _) => none
          | (some b, s1) =>
            some (b, { s1 with inodes := wr s1.inodes ioff ({ s1.inodes ioff with data_block := b }) })
        else some ((s.inodes ioff).data_block, s)) with
      | none => (.error ENOSPC, s)
      | some (blk, s2) =>
        if blk + off ≥ fssize then (.error EIO, s2)
        else if off + buf.length > BLOCK_SIZE then (.error EFBIG, s2)
        else
          let s3 := { s2 with fileBytes := writeBytes s2.fileBytes (blk + off) buf }
          let nd := s3.inodes ioff
          (.ok buf.length,
            { s3 with inodes := wr s3.inodes ioff ({ nd with size := if off + buf.length > nd.size then off + buf.length else nd.size, modification_time := t, change_time := t }) })

end MyFS

namespace OldFS

/-! ## First-generation code (implementation.c, lines 237-1342)

Only the parts needed by the claims are embedded: the data model, the path
resolver `find_path` and `__myfs_read_implem`. -/

def FILE_TYPE : Nat := 0
def DIR_TYPE : Nat := 1

/-- C struct myfs_dir_entry of the first generation. -/
structure myfs_dir_entry where
  offset : Nat
  name : List Char
  type : Nat
deriving DecidableEq

/-- C struct myfs_header of the first generation. -/
structure myfs_header where
  root_dir_offset : Nat
  last_offset : Nat
deriving DecidableEq

/-- C struct myfs_file of the first generation. -/
structure myfs_file where
  data_offset : Nat
  size : Nat
  access_time : Int
  mod_time : Int
deriving DecidableEq

/-- C struct myfs_dir of the first generation (entries is a flexible array). -/
structure myfs_dir where
  offset : Nat
  num_links : Nat
  access_time : Int
  mod_time : Int
  entry_count : Nat
  entries : Nat → myfs_dir_entry

/-- the first-generation buffer: file and directory records and raw data
bytes, addressed by byte offset. -/
structure Vol where
  header : myfs_header
  files : Nat → myfs_file
  dirs : Nat → myfs_dir
  bytes : Nat → Nat

/-- `find_entry(curr_dir, name, fsptr, &type)`: first entry matching the name
whose type is FILE_TYPE or DIR_TYPE, with its offset. -/
def find_entry (d : myfs_dir) (name : List Char) : Option (Nat × Nat) :=
  (List.range d.entry_count).findSome? (fun i =>
    let e := d.entries i
    if e.name = name then
      (if e.type = FILE_TYPE then some (e.offset, FILE_TYPE)
       else if e.type = DIR_TYPE then some (e.offset, DIR_TYPE)
       else none)
    else none)

/-- result of `find_path`: a file offset or a directory offset. -/
inductive Found where
  | file (off : Nat) : Found
  | dir (off : Nat) : Found
deriving DecidableEq

/-- the token walk of `find_path`: a file entry returns immediately, a
directory entry continues; the walk runs on the path truncated to 255
characters (`strncpy(path_cpy, path, 255)`). -/
def find_path_walk (v : Vol) (cur : Nat) : List (List Char) → Option Found
  | [] => some (.dir cur)
  | tok :: rest =>
    match find_entry (v.dirs cur) tok with
    | none => none
    | some (off, ty) =>
      if ty = FILE_TYPE then some (.file off)
      else find_path_walk v off rest

/-- `find_path(fsptr, path, &file, &dir)`. -/
def find_path (v : Vol) (p : List Char) : Option Found :=
  if p = ['/'] then some (.dir v.header.root_dir_offset)
  else find_path_walk v v.header.root_dir_offset (MyFS.tokenize (p.take 255))

/-- `#define MAX(a,b) ((a) > (b) ? (a) : (b))`. -/
def cMAX (a b : Nat) : Nat := if a > b then a else b

/-- the bytes `memcpy` hands to the caller: `n` bytes starting at absolute
offset `start`. -/
def readBytesList (v : Vol) (start n : Nat) : List Nat :=
  (List.range n).map (fun i => v.bytes (start + i))

/-- `__myfs_read_implem` of the first generation (implementation.c lines
1107-1156).  The success payload is the returned byte count together with the
bytes copied into the caller buffer.  Note `read_bytes = MAX(max_bytes, size)`
in the source. -/
def «__myfs_read_implem» (v : Vol) (fssize : Nat) (p : List Char) (size : Nat)
    (offset : Int) (t : Int) : Except Nat (Nat × List Nat) × Vol :=
  if fssize = 0 then (.error MyFS.EFAULT, v)
  else
    match find_path v p with
    | none => (.error MyFS.ENOENT, v)
    | some (.dir _) => (.error MyFS.ENOENT, v)
    | some (.file foff) =>
      let f := v.files foff
      if offset < 0 then (.error MyFS.EINVAL, v)
      else if offset ≥ (f.size : Int) then (.ok (0, []), v)
      else
        let o := offset.toNat
        let max_bytes := f.size - o
        let read_bytes := cMAX max_bytes size
        if f.data_offset + o + read_bytes > fssize then (.error MyFS.EIO, v)
        else
          (.ok (read_bytes, readBytesList v (f.data_offset + o) read_bytes),
            { v with files := MyFS.wr v.files foff { f with access_time := t } })

end OldFS

namespace MyFS

/-! ## Concrete states used by the witnesses -/

/-- an all-zero buffer, as on a first mount. -/
def blankFS : FS :=
  { info := ⟨0, 0, 0, 0, 0, 0, 0, 0⟩
    inode_bitmap := fun _ => 0
    block_bitmap := fun _ => 0
    inodes := fun _ => zeroInode
    dirents := fun _ _ => zeroEntry
    fileBytes := fun _ => 0 }

/-- buffer size used by the witnesses. -/
def FSZ : Nat := 1048576

/-- a freshly initialized volume. -/
def initFS : FS := (init_fs blankFS FSZ 1000 1000 0).2

/-! ## Byte-level bitmap facts (proved by bounded case analysis) -/

set_option maxRecDepth 100000 in
theorem byte_all_set {v : Nat} (hv : v < 256) (h : ∀ b < 8, v &&& (1 <<< b) ≠ 0) :
    v = 255 := by
  revert h
  revert hv
  revert v
  decide

theorem byte_255_set : ∀ b < 8, (255 : Nat) &&& (1 <<< b) ≠ 0 := by decide

set_option maxRecDepth 100000 in
theorem byte_set_clear {v b : Nat} (hv : v < 256) (hb : b < 8) (h : v &&& (1 <<< b) = 0) :
    (v ||| (1 <<< b)) &&& (255 ^^^ (1 <<< b)) = v := by
  revert h; revert hb; revert b; revert hv; revert v
  decide

set_option maxRecDepth 200000 in
theorem byte_or_bit {v b j : Nat} (hv : v < 256) (hb : b < 8) (hj : j < 8) :
    ((v ||| (1 <<< b)) &&& (1 <<< j) = 0) ↔ (v &&& (1 <<< j) = 0 ∧ j ≠ b) := by
  revert hj; revert j; revert hb; revert b; revert hv; revert v
  decide

set_option maxRecDepth 200000 in
theorem byte_clear_bit {v b j : Nat} (hv : v < 256) (hb : b < 8) (hj : j < 8) :
    ((v &&& (255 ^^^ (1 <<< b))) &&& (1 <<< j) = 0) ↔ (v &&& (1 <<< j) = 0 ∨ j = b) := by
  revert hj; revert j; revert hb; revert b; revert hv; revert v
  decide

/-! ## Allocator scan lemmas -/

/-- bit `j` of the inode bitmap, exactly as the code tests it. -/
def inodeBitSet (s : FS) (j : Nat) : Prop :=
  s.inode_bitmap (j / 8) &&& (1 <<< (j % 8)) ≠ 0

/-- bit `j` of the block bitmap, exactly as the code tests it. -/
def blockBitSet (s : FS) (j : Nat) : Prop :=
  s.block_bitmap (j / 8) &&& (1 <<< (j % 8)) ≠ 0

instance (s : FS) (j : Nat) : Decidable (inodeBitSet s j) := by
  unfold inodeBitSet; infer_instance

instance (s : FS) (j : Nat) : Decidable (blockBitSet s j) := by
  unfold blockBitSet; infer_instance

theorem scanBitsInode_some {v byte : Nat} (hb : byte < 128) :
    ∀ (a n : Nat), a + n ≤ 8 → ∀ {k : Nat},
      scanBitsInode v byte (List.range' a n) = some k →
      ∃ b, k = byte * 8 + b ∧ a ≤ b ∧ b < a + n ∧ v &&& (1 <<< b) = 0 ∧
        ∀ c, a ≤ c → c < b → v &&& (1 <<< c) ≠ 0 := by
  intro a n
  induction n generalizing a with
  | zero => intro _ k h; simp [scanBitsInode] at h
  | succ m ih =>
    intro han k h
    rw [List.range'_succ] at h
    unfold scanBitsInode at h
    have hguard : ¬ byte * 8 + a ≥ MAX_INODES := by
      simp only [MAX_INODES]; omega
    rw [if_neg hguard] at h
    by_cases hbit : v &&& (1 <<< a) = 0
    · rw [if_pos hbit] at h
      simp only [Option.some.injEq] at h
      subst h
      refine ⟨a, rfl, le_refl a, by omega, hbit, ?_⟩
      intro c hc1 hc2; omega
    · rw [if_neg hbit] at h
      obtain ⟨b, hb1, hb2, hb3, hb4, hb5⟩ := ih (a + 1) (by omega) h
      refine ⟨b, hb1, by omega, by omega, hb4, ?_⟩
      intro c hc1 hc2
      rcases Nat.eq_or_lt_of_le hc1 with hce | hcl
      · rw [← hce]; exact hbit
      · exact hb5 c hcl hc2

theorem scanBitsInode_none {v byte : Nat} (hb : byte < 128) :
    ∀ (a n : Nat), a + n ≤ 8 →
      scanBitsInode v byte (List.range' a n) = none →
      ∀ b, a ≤ b → b < a + n → v &&& (1 <<< b) ≠ 0 := by
  intro a n
  induction n generalizing a with
  | zero => intro _ _ b h1 h2; omega
  | succ m ih =>
    intro han h b hb1 hb2
    rw [List.range'_succ] at h
    unfold scanBitsInode at h
    have hguard : ¬ byte * 8 + a ≥ MAX_INODES := by
      simp only [MAX_INODES]; omega
    rw [if_neg hguard] at h
    by_cases hbit : v &&& (1 <<< a) = 0
    · rw [if_pos hbit] at h; exact absurd h (by simp)
    · rw [if_neg hbit] at h
      rcases Nat.eq_or_lt_of_le hb1 with hce | hcl
      · rw [← hce]; exact hbit
      · exact ih (a + 1) (by omega) h b hcl (by omega)

theorem inodeByteScan_some {s : FS} :
    ∀ (a n : Nat), a + n ≤ 128 →
      (∀ β, a ≤ β → β < a + n → s.inode_bitmap β < 256) → ∀ {k : Nat},
      inodeByteScan s (List.range' a n) = some k →
      8 * a ≤ k ∧ k < 8 * (a + n) ∧ ¬ inodeBitSet s k ∧
        ∀ j, 8 * a ≤ j → j < k → inodeBitSet s j := by
  intro a n
  induction n generalizing a with
  | zero => intro _ _ k h; simp [inodeByteScan] at h
  | succ m ih =>
    intro han wf k h
    rw [List.range'_succ] at h
    unfold inodeByteScan at h
    by_cases h255 : s.inode_bitmap a = 255
    · rw [if_pos h255] at h
      obtain ⟨h1, h2, h3, h4⟩ := ih (a + 1) (by omega) (fun β hβ1 hβ2 => wf β (by omega) (by omega)) h
      refine ⟨by omega, by omega, h3, ?_⟩
      intro j hj1 hj2
      by_cases hjlo : 8 * (a + 1) ≤ j
      · exact h4 j hjlo hj2
      · have hdiv : j / 8 = a := by omega
        have hmod : j % 8 < 8 := by omega
        unfold inodeBitSet
        rw [hdiv, h255]
        exact byte_255_set (j % 8) hmod
    · rw [if_neg h255] at h
      rcases hscan : scanBitsInode (s.inode_bitmap a) a (List.range 8) with _ | r
      · rw [hscan] at h
        exfalso
        apply h255
        apply byte_all_set (wf a (le_refl a) (by omega))
        intro b hb
        rw [List.range_eq_range'] at hscan
        exact scanBitsInode_none (by omega) 0 8 (by omega) hscan b (by omega) hb
      · rw [hscan] at h
        simp only [Option.some.injEq] at h
        subst h
        rw [List.range_eq_range'] at hscan
        obtain ⟨b, hb1, hb2, hb3, hb4, hb5⟩ :=
          scanBitsInode_some (v := s.inode_bitmap a) (by omega) 0 8 (by omega) hscan
        subst hb1
        have hdiv : (a * 8 + b) / 8 = a := by omega
        have hmod : (a * 8 + b) % 8 = b := by omega
        refine ⟨by omega, by omega, ?_, ?_⟩
        · unfold inodeBitSet
          rw [hdiv, hmod]
          simp [hb4]
        · intro j hj1 hj2
          have hjdiv : j / 8 = a := by omega
          have hjmod : j % 8 < b := by omega
          unfold inodeBitSet
          rw [hjdiv]
          exact hb5 (j % 8) (by omega) hjmod

theorem inodeByteScan_none {s : FS} :
    ∀ (a n : Nat), a + n ≤ 128 →
      (∀ β, a ≤ β → β < a + n → s.inode_bitmap β < 256) →
      inodeByteScan s (List.range' a n) = none →
      ∀ j, 8 * a ≤ j → j < 8 * (a + n) → inodeBitSet s j := by
  intro a n
  induction n generalizing a with
  | zero => intro _ _ _ j h1 h2; omega
  | succ m ih =>
    intro han wf h j hj1 hj2
    rw [List.range'_succ] at h
    unfold inodeByteScan at h
    by_cases hjlo : 8 * (a + 1) ≤ j
    · by_cases h255 : s.inode_bitmap a = 255
      · rw [if_pos h255] at h
        exact ih (a + 1) (by omega) (fun β hβ1 hβ2 => wf β (by omega) (by omega)) h j hjlo (by omega)
      · rw [if_neg h255] at h
        rcases hscan : scanBitsInode (s.inode_bitmap a) a (List.range 8) with _ | r
        · rw [hscan] at h
          exact ih (a + 1) (by omega) (fun β hβ1 hβ2 => wf β (by omega) (by omega)) h j hjlo (by omega)
        · rw [hscan] at h; exact absurd h (by simp)
    · have hdiv : j / 8 = a := by omega
      have hmod : j % 8 < 8 := by omega
      unfold inodeBitSet
      rw [hdiv]
      by_cases h255 : s.inode_bitmap a = 255
      · rw [h255]; exact byte_255_set (j % 8) hmod
      · rcases hscan : scanBitsInode (s.inode_bitmap a) a (List.range 8) with _ | r
        · rw [List.range_eq_range'] at hscan
          exact scanBitsInode_none (by omega) 0 8 (by omega) hscan (j % 8) (by omega) hmod
        · rw [if_neg h255, hscan] at h; exact absurd h (by simp)

theorem scanBlocks_some {s : FS} :
    ∀ (a n : Nat), ∀ {k : Nat},
      scanBlocks s (List.range' a n) = some k →
      a ≤ k ∧ k < a + n ∧ ¬ blockBitSet s k ∧ ∀ j, a ≤ j → j < k → blockBitSet s j := by
  intro a n
  induction n generalizing a with
  | zero => intro k h; simp [scanBlocks] at h
  | succ m ih =>
    intro k h
    rw [List.range'_succ] at h
    unfold scanBlocks at h
    by_cases hbit : s.block_bitmap (a / 8) &&& (1 <<< (a % 8)) = 0
    · rw [if_pos hbit] at h
      simp only [Option.some.injEq] at h
      subst h
      exact ⟨le_refl a, by omega, by unfold blockBitSet; simp [hbit], fun j h1 h2 => by omega⟩
    · rw [if_neg hbit] at h
      obtain ⟨h1, h2, h3, h4⟩ := ih (a + 1) h
      refine ⟨by omega, by omega, h3, ?_⟩
      intro j hj1 hj2
      rcases Nat.eq_or_lt_of_le hj1 with hce | hcl
      · rw [← hce]; exact hbit
      · exact h4 j hcl hj2

theorem scanBlocks_none {s : FS} :
    ∀ (a n : Nat),
      scanBlocks s (List.range' a n) = none →
      ∀ j, a ≤ j → j < a + n → blockBitSet s j := by
  intro a n
  induction n generalizing a with
  | zero => intro _ j h1 h2; omega
  | succ m ih =>
    intro h j hj1 hj2
    rw [List.range'_succ] at h
    unfold scanBlocks at h
    by_cases hbit : s.block_bitmap (a / 8) &&& (1 <<< (a % 8)) = 0
    · rw [if_pos hbit] at h; exact absurd h (by simp)
    · rw [if_neg hbit] at h
      rcases Nat.eq_or_lt_of_le hj1 with hce | hcl
      · rw [← hce]; exact hbit
      · exact ih (a + 1) h j hcl (by omega)


theorem find_free_inode_slot_eq (s : FS) :
    find_free_inode_slot s = inodeByteScan s (List.range' 0 128) := by
  unfold find_free_inode_slot
  rw [List.range_eq_range']
  rfl

theorem find_free_inode_eq_some {s : FS} {fssize k : Nat}
    (hib : s.info.free_inode_bitmap < fssize) (hk : find_free_inode_slot s = some k) :
    find_free_inode s fssize =
      (some (s.info.inode_table + k * INODE_SIZE),
        { s with inode_bitmap :=
                   wr s.inode_bitmap (k / 8) (s.inode_bitmap (k / 8) ||| (1 <<< (k % 8))) }) := by
  unfold find_free_inode
  rw [if_neg (by omega), hk]

theorem find_free_data_block_eq_some {s : FS} {fssize k : Nat}
    (hbb : s.info.free_block_bitmap < fssize)
    (hk : scanBlocks s (List.range s.info.max_data_blocks) = some k) :
    find_free_data_block s fssize =
      (some (s.info.data_blocks + k * BLOCK_SIZE),
        { s with block_bitmap :=
                   wr s.block_bitmap (k / 8) (s.block_bitmap (k / 8) ||| (1 <<< (k % 8))) }) := by
  unfold find_free_data_block
  rw [if_neg (by omega), hk]

/-- decidable equality for Except results. -/
instance exceptDecEq {e a : Type} [DecidableEq e] [DecidableEq a] : DecidableEq (Except e a) :=
  fun x y =>
    match x, y with
    | .ok u, .ok v =>
      if h : u = v then isTrue (by rw [h]) else isFalse (by intro he; cases he; exact h rfl)
    | .error u, .error v =>
      if h : u = v then isTrue (by rw [h]) else isFalse (by intro he; cases he; exact h rfl)
    | .ok _, .error _ => isFalse (by intro he; cases he)
    | .error _, .ok _ => isFalse (by intro he; cases he)

/-! ## Claim C1 -/

/-- C1: initialization is idempotent.  For every buffer whose magic tag at
offset 0 already equals FS_ID, `init_fs` returns success and the whole
volume state — header/geometry fields, both bitmaps, every inode and the root
directory's entries — is unchanged. -/
theorem C1_init_idempotent (s : FS) (fssize uid gid : Nat) (t : Int)
    (h : s.info.fs_id = FS_ID) :
    init_fs s fssize uid gid t = (true, s) :=
  init_fs_noop h fssize uid gid t

theorem C1_init_idempotent_witness :
    initFS.info.fs_id = FS_ID ∧ init_fs initFS FSZ 7 7 5 = (true, initFS) :=
  ⟨by decide, C1_init_idempotent initFS FSZ 7 7 5 (by decide)⟩

/-! ## Claim C3 -/

/-- states of the remove-then-recreate scenario: create /a on a fresh volume,
unlink it, create /b. -/
def reuseS1 : FS := («__myfs_mknod_implem» initFS FSZ 1000 1000 0 ['/', 'a']).2

def reuseS2 : FS := («__myfs_unlink_implem» reuseS1 FSZ 1000 1000 0 ['/', 'a']).2

def reuseS3 : FS := («__myfs_mknod_implem» reuseS2 FSZ 1000 1000 0 ['/', 'b']).2

/-- C3: first-free allocation policy.  With well-formed bitmap bytes, the
inode allocator returns the slot of the lowest-indexed clear bit and sets
exactly that bit; it succeeds whenever a clear bit exists and reports no
space (state unchanged) when all bits are set; the data-block allocator does
the same; and in the remove-then-recreate scenario the freed lowest non-root
slot (slot 1, inode-table offset 764) is observably reused. -/
theorem C3_first_free_allocation (s : FS) (fssize : Nat)
    (wf : ∀ b < 128, s.inode_bitmap b < 256) :
    (∀ k, find_free_inode_slot s = some k →
      k < MAX_INODES ∧ ¬ inodeBitSet s k ∧ (∀ j < k, inodeBitSet s j) ∧
      (s.info.free_inode_bitmap < fssize →
        (find_free_inode s fssize).1 = some (s.info.inode_table + k * INODE_SIZE) ∧
        ∀ j < MAX_INODES,
          (inodeBitSet (find_free_inode s fssize).2 j ↔ (inodeBitSet s j ∨ j = k)))) ∧
    ((∃ j, j < MAX_INODES ∧ ¬ inodeBitSet s j) → ∃ k, find_free_inode_slot s = some k) ∧
    ((∀ j < MAX_INODES, inodeBitSet s j) → find_free_inode s fssize = (none, s)) ∧
    (∀ k, scanBlocks s (List.range s.info.max_data_blocks) = some k →
      k < s.info.max_data_blocks ∧ ¬ blockBitSet s k ∧ (∀ j < k, blockBitSet s j) ∧
      (s.info.free_block_bitmap < fssize → s.block_bitmap (k / 8) < 256 →
        (find_free_data_block s fssize).1 = some (s.info.data_blocks + k * BLOCK_SIZE) ∧
        ∀ j < s.info.max_data_blocks,
          (blockBitSet (find_free_data_block s fssize).2 j ↔ (blockBitSet s j ∨ j = k)))) ∧
    ((∃ j, j < s.info.max_data_blocks ∧ ¬ blockBitSet s j) →
      ∃ k, scanBlocks s (List.range s.info.max_data_blocks) = some k) ∧
    ((∀ j < s.info.max_data_blocks, blockBitSet s j) →
      find_free_data_block s fssize = (none, s)) ∧
    ((«__myfs_mknod_implem» initFS FSZ 1000 1000 0 ['/', 'a']).1 = .ok () ∧
      find_inode reuseS1 ['/', 'a'] = some (initFS.info.inode_table + 1 * INODE_SIZE) ∧
      («__myfs_unlink_implem» reuseS1 FSZ 1000 1000 0 ['/', 'a']).1 = .ok () ∧
      ¬ inodeBitSet reuseS2 1 ∧
      («__myfs_mknod_implem» reuseS2 FSZ 1000 1000 0 ['/', 'b']).1 = .ok () ∧
      find_inode reuseS3 ['/', 'b'] = some (initFS.info.inode_table + 1 * INODE_SIZE)) := by
  have wf' : ∀ β, 0 ≤ β → β < 0 + 128 → s.inode_bitmap β < 256 :=
    fun β h1 h2 => wf β (by omega)
  refine ⟨?_, ?_, ?_, ?_, ?_, ?_, ?_⟩
  · -- inode allocator: lowest clear bit, set exactly once
    intro k hk
    rw [find_free_inode_slot_eq] at hk
    obtain ⟨h1, h2, h3, h4⟩ := inodeByteScan_some 0 128 (by omega) wf' hk
    have hk1024 : k < 1024 := by omega
    refine ⟨by simp only [MAX_INODES]; omega, h3, fun j hj => h4 j (by omega) hj, ?_⟩
    intro hib
    have hk0 : find_free_inode_slot s = some k := by rw [find_free_inode_slot_eq]; exact hk
    rw [find_free_inode_eq_some hib hk0]
    refine ⟨rfl, ?_⟩
    intro j hj
    have hv : s.inode_bitmap (k / 8) < 256 := wf (k / 8) (by omega)
    by_cases hbyte : j / 8 = k / 8
    · unfold inodeBitSet
      simp only [hbyte, wr_same]
      rw [not_iff_comm, not_or]
      constructor
      · rintro ⟨hjs, hjk⟩
        rw [byte_or_bit hv (by omega) (by omega)]
        refine ⟨by simpa [inodeBitSet, hbyte] using hjs, ?_⟩
        intro hmod
        exact hjk (by omega)
      · intro hz
        rw [byte_or_bit hv (by omega) (by omega)] at hz
        exact ⟨by simpa [inodeBitSet, hbyte] using hz.1, fun hjk => hz.2 (by omega)⟩
    · unfold inodeBitSet
      have hjk : j ≠ k := fun he => hbyte (by rw [he])
      simp only [wr_other _ _ _ hbyte, hjk, or_false]
  · -- a clear bit exists: the scan succeeds
    rintro ⟨j, hj, hjc⟩
    rcases hk : find_free_inode_slot s with _ | k
    · exfalso
      rw [find_free_inode_slot_eq] at hk
      refine hjc (inodeByteScan_none 0 128 (by omega) wf' hk j (by omega) ?_)
      revert hj
      simp only [MAX_INODES]
      omega
    · exact ⟨k, rfl⟩
  · -- all inode bits set: NoSpace, state unchanged
    intro hall
    unfold find_free_inode
    by_cases hib : s.info.free_inode_bitmap ≥ fssize
    · rw [if_pos hib]
    · rw [if_neg hib]
      rcases hk : find_free_inode_slot s with _ | k
      · rfl
      · exfalso
        rw [find_free_inode_slot_eq] at hk
        obtain ⟨h1, h2, h3, h4⟩ := inodeByteScan_some 0 128 (by omega) wf' hk
        exact h3 (hall k (by simp only [MAX_INODES]; omega))
  · -- block allocator: lowest clear bit, set exactly once
    intro k hk
    have hk0 := hk
    rw [List.range_eq_range'] at hk
    obtain ⟨h1, h2, h3, h4⟩ := scanBlocks_some 0 s.info.max_data_blocks hk
    refine ⟨by omega, h3, fun j hj => h4 j (by omega) hj, ?_⟩
    intro hbb hv
    rw [find_free_data_block_eq_some hbb hk0]
    refine ⟨rfl, ?_⟩
    intro j hj
    by_cases hbyte : j / 8 = k / 8
    · unfold blockBitSet
      simp only [hbyte, wr_same]
      rw [not_iff_comm, not_or]
      constructor
      · rintro ⟨hjs, hjk⟩
        rw [byte_or_bit hv (by omega) (by omega)]
        refine ⟨by simpa [blockBitSet, hbyte] using hjs, ?_⟩
        intro hmod
        exact hjk (by omega)
      · intro hz
        rw [byte_or_bit hv (by omega) (by omega)] at hz
        exact ⟨by simpa [blockBitSet, hbyte] using hz.1, fun hjk => hz.2 (by omega)⟩
    · unfold blockBitSet
      have hjk : j ≠ k := fun he => hbyte (by rw [he])
      simp only [wr_other _ _ _ hbyte, hjk, or_false]
  · -- a clear block bit exists: the scan succeeds
    rintro ⟨j, hj, hjc⟩
    rcases hk : scanBlocks s (List.range s.info.max_data_blocks) with _ | k
    · exfalso
      rw [List.range_eq_range'] at hk
      exact hjc (scanBlocks_none 0 s.info.max_data_blocks hk j (by omega) (by omega))
    · exact ⟨k, rfl⟩
  · -- all block bits set: NoSpace, state unchanged
    intro hall
    unfold find_free_data_block
    by_cases hbb : s.info.free_block_bitmap ≥ fssize
    · rw [if_pos hbb]
    · rw [if_neg hbb]
      rcases hk : scanBlocks s (List.range s.info.max_data_blocks) with _ | k
      · rfl
      · exfalso
        rw [List.range_eq_range'] at hk
        obtain ⟨h1, h2, h3, h4⟩ := scanBlocks_some 0 s.info.max_data_blocks hk
        exact h3 (hall k (by omega))
  · -- remove-then-recreate reuses the freed lowest slot
    refine ⟨by decide, by decide, by decide, by decide, by decide, by decide⟩


theorem C3_first_free_allocation_witness :
    (∀ b < 128, initFS.inode_bitmap b < 256) ∧
    (∃ k, find_free_inode_slot initFS = some k) ∧
    find_inode reuseS3 ['/', 'b'] = some (initFS.info.inode_table + 1 * INODE_SIZE) := by
  refine ⟨by decide, ?_, ?_⟩
  · exact (C3_first_free_allocation initFS FSZ (by decide)).2.1 ⟨1, by decide, by decide⟩
  · exact (C3_first_free_allocation initFS FSZ (by decide)).2.2.2.2.2.2.2.2.2.2.2


/-! ## Claim C4 -/

theorem scanBlocks_bm {s s' : FS} (h : s'.block_bitmap = s.block_bitmap) :
    ∀ l, scanBlocks s' l = scanBlocks s l := by
  intro l
  induction l with
  | nil => rfl
  | cons a rest ih =>
    unfold scanBlocks
    rw [h, ih]

theorem add_dir_entry_full {s : FS} {fssize dir_off : Nat} {name : List Char} {child : Nat}
    {t : Int} (h : BLOCK_SIZE / SIZEOF_DIRENT ≤ (s.inodes dir_off).size / SIZEOF_DIRENT) :
    add_dir_entry s fssize dir_off name child t = none := by
  unfold add_dir_entry
  rw [if_pos (by omega)]


theorem free_data_block_eq {s : FS} {fssize bn : Nat}
    (h1 : s.info.data_blocks + bn * BLOCK_SIZE < fssize) (h2 : bn < s.info.max_data_blocks) :
    free_data_block s fssize (s.info.data_blocks + bn * BLOCK_SIZE) =
      some { s with
             block_bitmap := wr s.block_bitmap (bn / 8) (clearBit (s.block_bitmap (bn / 8)) (bn % 8)) } := by
  have hBS := h1
  simp only [BLOCK_SIZE] at hBS
  have harith : (s.info.data_blocks + bn * BLOCK_SIZE - s.info.data_blocks) / BLOCK_SIZE = bn := by
    simp only [BLOCK_SIZE]; omega
  simp only [free_data_block, harith]
  rw [if_neg (by simp only [BLOCK_SIZE]; omega), if_neg (by omega)]

theorem clear_inode_bit_eq {s : FS} {k : Nat} (hk : k < MAX_INODES) :
    clear_inode_bit s (s.info.inode_table + k * INODE_SIZE) =
      { s with
        inode_bitmap := wr s.inode_bitmap (k / 8) (clearBit (s.inode_bitmap (k / 8)) (k % 8)) } := by
  have harith : (s.info.inode_table + k * INODE_SIZE - s.info.inode_table) / INODE_SIZE = k := by
    simp only [INODE_SIZE]; omega
  simp only [clear_inode_bit, harith]
  rw [if_pos hk]


theorem clearBit_set {v b : Nat} (hv : v < 256) (hb : b < 8) (h : v &&& (1 <<< b) = 0) :
    clearBit (v ||| (1 <<< b)) b = v := by
  unfold clearBit
  exact byte_set_clear hv hb h

/-- C4: create-directory rollback.  When mkdir reaches the entry-insertion
step with an inode (slot `k`) and a data block (block `bn`) already
allocated, and the insertion fails because the parent directory is full, the
call fails with ENOSPC and releases both allocations: both bitmaps are
byte-for-byte as before, the new inode record is zeroed, every other inode
is untouched, and no directory block other than the freed (now unreferenced)
one was written. -/
theorem C4_mkdir_rollback (s : FS) (fssize uid gid : Nat) (t : Int)
    (p pp leaf : List Char) (parent_off k bn : Nat)
    (h_id : s.info.fs_id = FS_ID)
    (h_split : split_path p = some (pp, leaf))
    (h_parent : find_inode s pp = some parent_off)
    (h_pdir : ¬ (s.inodes parent_off).mode &&& S_IFDIR = 0)
    (h_pblk : (s.inodes parent_off).data_block < fssize)
    (h_absent : nameInDir s (s.inodes parent_off).data_block leaf
      ((s.inodes parent_off).size / SIZEOF_DIRENT) = false)
    (h_slot : find_free_inode_slot s = some k)
    (h_ib : s.info.free_inode_bitmap < fssize)
    (h_wf : ∀ b < 128, s.inode_bitmap b < 256)
    (h_newoff : s.info.inode_table + k * INODE_SIZE < fssize)
    (h_blkscan : scanBlocks s (List.range s.info.max_data_blocks) = some bn)
    (h_bb : s.info.free_block_bitmap < fssize)
    (h_bbyte : s.block_bitmap (bn / 8) < 256)
    (h_blkoff : s.info.data_blocks + bn * BLOCK_SIZE < fssize)
    (h_full : BLOCK_SIZE / SIZEOF_DIRENT ≤ (s.inodes parent_off).size / SIZEOF_DIRENT)
    (h_sep : parent_off ≠ s.info.inode_table + k * INODE_SIZE) :
    («__myfs_mkdir_implem» s fssize uid gid t p).1 = .error ENOSPC ∧
    (∀ b, («__myfs_mkdir_implem» s fssize uid gid t p).2.inode_bitmap b = s.inode_bitmap b) ∧
    (∀ b, («__myfs_mkdir_implem» s fssize uid gid t p).2.block_bitmap b = s.block_bitmap b) ∧
    («__myfs_mkdir_implem» s fssize uid gid t p).2.inodes
      (s.info.inode_table + k * INODE_SIZE) = zeroInode ∧
    (∀ o, o ≠ s.info.inode_table + k * INODE_SIZE →
      («__myfs_mkdir_implem» s fssize uid gid t p).2.inodes o = s.inodes o) ∧
    (∀ b i, b ≠ s.info.data_blocks + bn * BLOCK_SIZE →
      («__myfs_mkdir_implem» s fssize uid gid t p).2.dirents b i = s.dirents b i) ∧
    («__myfs_mkdir_implem» s fssize uid gid t p).2.fileBytes = s.fileBytes := by
  have hk_facts := inodeByteScan_some 0 128 (by omega)
    (fun b h1 h2 => h_wf b (by omega)) (by rw [← find_free_inode_slot_eq]; exact h_slot)
  obtain ⟨-, hk1024', hkclear, -⟩ := hk_facts
  have hk1024 : k < 1024 := by omega
  have h_blkscan' := h_blkscan
  rw [List.range_eq_range'] at h_blkscan'
  obtain ⟨-, hbnmax, hbnclear, -⟩ := scanBlocks_some 0 s.info.max_data_blocks h_blkscan'
  have hffi := find_free_inode_eq_some h_ib h_slot
  have hscan1 : scanBlocks
      ({ s with inode_bitmap := wr s.inode_bitmap (k / 8) (s.inode_bitmap (k / 8) ||| (1 <<< (k % 8))) } : FS)
      (List.range ({ s with inode_bitmap := wr s.inode_bitmap (k / 8) (s.inode_bitmap (k / 8) ||| (1 <<< (k % 8))) } : FS).info.max_data_blocks) = some bn :=
    Eq.trans (scanBlocks_bm (show ({ s with inode_bitmap := wr s.inode_bitmap (k / 8) (s.inode_bitmap (k / 8) ||| (1 <<< (k % 8))) } : FS).block_bitmap = s.block_bitmap from rfl) _) h_blkscan
  have hbb1 : ({ s with inode_bitmap := wr s.inode_bitmap (k / 8) (s.inode_bitmap (k / 8) ||| (1 <<< (k % 8))) } : FS).info.free_block_bitmap < fssize := h_bb
  have hffd := find_free_data_block_eq_some hbb1 hscan1
  simp only [«__myfs_mkdir_implem», init_fs_noop h_id, h_split, h_parent,
    if_neg h_pdir, if_neg (show ¬ (s.inodes parent_off).data_block ≥ fssize by omega),
    h_absent, Bool.false_eq_true, if_false, hffi,
    if_neg (show ¬ s.info.inode_table + k * INODE_SIZE ≥ fssize by omega),
    hffd, if_neg (show ¬ s.info.data_blocks + bn * BLOCK_SIZE ≥ fssize by omega)]
  split
  · -- add_dir_entry failed: the rollback ran
    rename_i heq
    clear heq
    have hkmax : k < MAX_INODES := by simp only [MAX_INODES]; omega
    have hbnmax' : bn < s.info.max_data_blocks := by omega
    have hbc : s.block_bitmap (bn / 8) &&& (1 <<< (bn % 8)) = 0 := by
      by_contra hcon
      exact hbnclear hcon
    have hic : s.inode_bitmap (k / 8) &&& (1 <<< (k % 8)) = 0 := by
      by_contra hcon
      exact hkclear hcon
    rw [free_data_block_eq (by exact h_blkoff) (by exact (show bn < s.info.max_data_blocks by omega))]
    simp only [Option.getD_some]
    rw [clear_inode_bit_eq (by exact hkmax)]
    dsimp only
    refine ⟨?_, ?_, ?_, ?_, ?_, ?_, ?_⟩
    · trivial
    · intro b
      by_cases hb : b = k / 8
      · subst hb
        rw [wr_same, wr_same, clearBit_set (h_wf (k / 8) (by omega)) (by omega) hic]
      · rw [wr_other _ _ _ hb, wr_other _ _ _ hb]
    · intro b
      by_cases hb : b = bn / 8
      · subst hb
        rw [wr_same, wr_same, clearBit_set h_bbyte (by omega) hbc]
      · rw [wr_other _ _ _ hb, wr_other _ _ _ hb]
    · rw [wr_same]
    · intro o ho
      rw [wr_other _ _ _ ho, wr_other _ _ _ ho, wr_other _ _ _ ho]
    · intro b i hb
      rw [wr2_other _ _ _ _ (by intro hcon; exact hb hcon.1),
        wr2_other _ _ _ _ (by intro hcon; exact hb hcon.1)]
    · trivial
  · -- add_dir_entry cannot succeed on a full parent
    rename_i s5 heq
    rw [add_dir_entry_full (by
      simp only [wr]
      rw [if_neg h_sep, if_neg h_sep]
      exact h_full)] at heq
    cases heq


/-- a volume whose root directory already holds the maximum 15 entries, used
to witness the mkdir rollback. -/
def fullFS : FS :=
  { info := ⟨FS_ID, FSZ, 64, 192, 320, 636, 131708, MAX_DATA_BLOCKS⟩
    inode_bitmap := fun b => if b = 0 then 1 else 0
    block_bitmap := fun b => if b = 0 then 1 else 0
    inodes := fun o => if o = 64 then
        { mode := S_IFDIR ||| 0o755, uid := 9, gid := 9, size := 15 * SIZEOF_DIRENT,
          access_time := 0, modification_time := 0, change_time := 0, data_block := 131708 }
      else zeroInode
    dirents := fun b i => if b = 131708 ∧ i < 15 then ⟨['e'], 64⟩ else zeroEntry
    fileBytes := fun _ => 0 }

set_option maxRecDepth 10000 in
theorem C4_mkdir_rollback_witness :
    («__myfs_mkdir_implem» fullFS FSZ 9 9 0 ['/', 'x']).1 = .error ENOSPC ∧
    (∀ b, («__myfs_mkdir_implem» fullFS FSZ 9 9 0 ['/', 'x']).2.inode_bitmap b =
      fullFS.inode_bitmap b) ∧
    (∀ b, («__myfs_mkdir_implem» fullFS FSZ 9 9 0 ['/', 'x']).2.block_bitmap b =
      fullFS.block_bitmap b) ∧
    («__myfs_mkdir_implem» fullFS FSZ 9 9 0 ['/', 'x']).2.inodes
      (fullFS.info.inode_table + 1 * INODE_SIZE) = zeroInode := by
  have h := C4_mkdir_rollback fullFS FSZ 9 9 0 ['/', 'x'] ['/'] ['x'] 64 1 1
    (by decide) (by decide) (by decide) (by decide) (by decide) (by decide) (by decide)
    (by decide) (by decide) (by decide) (by decide) (by decide) (by decide) (by decide)
    (by decide) (by decide)
  exact ⟨h.1, h.2.1, h.2.2.1, h.2.2.2.1⟩


/-! ## Claim C2: path-walk infrastructure -/

theorem find_inode_eq_walk (s : FS) (p : List Char) :
    find_inode s p = walk s s.info.root_inode (tokenize p) := by
  unfold find_inode
  by_cases h : p = ['/']
  · rw [if_pos h, h]
    rfl
  · rw [if_neg h]

theorem walk_cons (s : FS) (off : Nat) (tok : List Char) (toks : List (List Char)) :
    walk s off (tok :: toks) =
      (if (s.inodes off).mode &&& S_IFDIR = 0 then none
       else match dirLookup s (s.inodes off) tok with
         | none => none
         | some child => walk s child toks) := rfl

theorem walk_append (s : FS) (xs ys : List (List Char)) :
    ∀ off, walk s off (xs ++ ys) =
      (match walk s off xs with
       | none => none
       | some o => walk s o ys) := by
  induction xs with
  | nil => intro off; rfl
  | cons tok rest ih =>
    intro off
    rw [List.cons_append, walk_cons s off tok (rest ++ ys), walk_cons s off tok rest]
    by_cases hd : (s.inodes off).mode &&& S_IFDIR = 0
    · rw [if_pos hd, if_pos hd]
    · rw [if_neg hd, if_neg hd]
      cases hdl : dirLookup s (s.inodes off) tok with
      | none => rfl
      | some child => exact ih child

theorem dirScan_congr {s s' : FS} {blk : Nat} {name : List Char}
    (h : ∀ i, s'.dirents blk i = s.dirents blk i) :
    ∀ l, dirScan s' blk name l = dirScan s blk name l := by
  intro l
  induction l with
  | nil => rfl
  | cons i rest ih =>
    unfold dirScan
    rw [h i, ih]

theorem walkReads_head_mem (s : FS) (off : Nat) (tok : List Char) (rest : List (List Char)) :
    off ∈ walkReads s off (tok :: rest) := by
  unfold walkReads
  by_cases hd : (s.inodes off).mode &&& S_IFDIR = 0
  · rw [if_pos hd]
    exact List.mem_singleton.mpr rfl
  · rw [if_neg hd]
    cases hdl : dirLookup s (s.inodes off) tok with
    | none => exact List.mem_singleton.mpr rfl
    | some child => exact List.mem_cons_self off _

theorem walk_congr {s s' : FS} : ∀ (toks : List (List Char)) (off : Nat),
    (∀ o ∈ walkReads s off toks, s'.inodes o = s.inodes o ∧
      ∀ i, s'.dirents ((s.inodes o).data_block) i = s.dirents ((s.inodes o).data_block) i) →
    walk s' off toks = walk s off toks := by
  intro toks
  induction toks with
  | nil => intro off _; rfl
  | cons tok rest ih =>
    intro off h
    obtain ⟨h1, h2⟩ := h off (walkReads_head_mem s off tok rest)
    unfold walk
    rw [h1]
    by_cases hd : (s.inodes off).mode &&& S_IFDIR = 0
    · rw [if_pos hd, if_pos hd]
    · rw [if_neg hd, if_neg hd]
      have hdl : dirLookup s' (s.inodes off) tok = dirLookup s (s.inodes off) tok :=
        dirScan_congr h2 _
      rw [hdl]
      cases hlk : dirLookup s (s.inodes off) tok with
      | none => rfl
      | some child =>
        apply ih child
        intro o ho
        apply h
        unfold walkReads
        rw [if_neg hd, hlk]
        exact List.mem_cons_of_mem _ ho

theorem dirScan_none {s : FS} {blk : Nat} {name : List Char} :
    ∀ l, (∀ i ∈ l, (s.dirents blk i).name ≠ name) → dirScan s blk name l = none := by
  intro l
  induction l with
  | nil => intro _; rfl
  | cons i rest ih =>
    intro h
    unfold dirScan
    rw [if_neg (h i (List.mem_cons_self i rest))]
    exact ih (fun j hj => h j (List.mem_cons_of_mem i hj))

theorem dirScan_cons (s : FS) (blk : Nat) (name : List Char) (i : Nat) (rest : List Nat) :
    dirScan s blk name (i :: rest) =
      (if (s.dirents blk i).name = name then some (s.dirents blk i).inode_offset
       else dirScan s blk name rest) := rfl

theorem dirScan_append_none {s : FS} {blk : Nat} {name : List Char} {l1 l2 : List Nat}
    (h : dirScan s blk name l1 = none) :
    dirScan s blk name (l1 ++ l2) = dirScan s blk name l2 := by
  induction l1 with
  | nil => rfl
  | cons i rest ih =>
    rw [dirScan_cons] at h
    rw [List.cons_append, dirScan_cons]
    by_cases hi : (s.dirents blk i).name = name
    · rw [if_pos hi] at h
      exact absurd h (by simp)
    · rw [if_neg hi] at h
      rw [if_neg hi]
      exact ih h

theorem add_dir_entry_eq {s : FS} {fssize dir_off : Nat} {name : List Char} {child : Nat}
    {t : Int}
    (hn : (s.inodes dir_off).size / SIZEOF_DIRENT < BLOCK_SIZE / SIZEOF_DIRENT)
    (hp : (s.inodes dir_off).data_block +
      ((s.inodes dir_off).size / SIZEOF_DIRENT) * SIZEOF_DIRENT < fssize) :
    add_dir_entry s fssize dir_off name child t =
      some { s with
             dirents := wr2 s.dirents (s.inodes dir_off).data_block ((s.inodes dir_off).size / SIZEOF_DIRENT) ⟨truncName name, child⟩
             inodes := wr s.inodes dir_off ({ s.inodes dir_off with size := (s.inodes dir_off).size + SIZEOF_DIRENT, modification_time := t, change_time := t }) } := by
  unfold add_dir_entry
  rw [if_neg (by omega), if_neg (by omega)]


/-- C2: create-file round trip.  Under the stated resolution and separation
hypotheses: when the parent directory exists, is a directory, does not yet
contain the leaf name, and an inode slot is free, `__myfs_mknod_implem`
succeeds, the new path resolves to the freshly allocated inode, and
`__myfs_getattr_implem` on it reports a regular file (mode S_IFREG|0644,
nlink 1) of size zero; and when the leaf name is already present in the
parent, the call fails with EEXIST and the state is unchanged. -/
theorem C2_mknod_roundtrip (s : FS) (fssize uid gid : Nat) (t : Int)
    (p pp leaf : List Char) (parent_off k : Nat)
    (h_id : s.info.fs_id = FS_ID)
    (h_split : split_path p = some (pp, leaf))
    (h_parent : find_inode s pp = some parent_off)
    (h_pdir : ¬ (s.inodes parent_off).mode &&& S_IFDIR = 0)
    (h_pblk : (s.inodes parent_off).data_block < fssize) :
    ((tokenize p = tokenize pp ++ [leaf]) →
     (∀ i < (s.inodes parent_off).size / SIZEOF_DIRENT,
        (s.dirents (s.inodes parent_off).data_block i).name ≠ leaf) →
     leaf.length ≤ MAX_FILENAME - 1 →
     find_free_inode_slot s = some k →
     s.info.free_inode_bitmap < fssize →
     s.info.inode_table + k * INODE_SIZE < fssize →
     (s.inodes parent_off).size / SIZEOF_DIRENT < BLOCK_SIZE / SIZEOF_DIRENT →
     (s.inodes parent_off).data_block +
       ((s.inodes parent_off).size / SIZEOF_DIRENT) * SIZEOF_DIRENT < fssize →
     parent_off ≠ s.info.inode_table + k * INODE_SIZE →
     (∀ o ∈ walkReads s s.info.root_inode (tokenize pp),
        o ≠ s.info.inode_table + k * INODE_SIZE ∧ o ≠ parent_off ∧
        (s.inodes o).data_block ≠ (s.inodes parent_off).data_block) →
     ((«__myfs_mknod_implem» s fssize uid gid t p).1 = .ok () ∧
      find_inode («__myfs_mknod_implem» s fssize uid gid t p).2 p =
        some (s.info.inode_table + k * INODE_SIZE) ∧
      (∃ st, («__myfs_getattr_implem» («__myfs_mknod_implem» s fssize uid gid t p).2
          fssize uid gid t p).1 = .ok st ∧
        st.st_mode = S_IFREG ||| 0o644 ∧ st.st_size = 0 ∧ st.st_nlink = 1))) ∧
    (nameInDir s (s.inodes parent_off).data_block leaf
        ((s.inodes parent_off).size / SIZEOF_DIRENT) = true →
      «__myfs_mknod_implem» s fssize uid gid t p = (.error EEXIST, s)) := by
  refine ⟨?_, ?_⟩
  · intro ha_tok ha_absent ha_len ha_slot ha_ib ha_newoff ha_room ha_eptr ha_sep ha_walk
    have hnin : nameInDir s (s.inodes parent_off).data_block leaf
        ((s.inodes parent_off).size / SIZEOF_DIRENT) = false := by
      unfold nameInDir
      rw [List.any_eq_false]
      intro i hi
      simp only [decide_eq_true_eq]
      exact ha_absent i (List.mem_range.mp hi)
    have hffi := find_free_inode_eq_some ha_ib ha_slot
    have htrunc : truncName leaf = leaf := by
      unfold truncName
      exact List.take_of_length_le ha_len
    have hdiv : ((s.inodes parent_off).size + SIZEOF_DIRENT) / SIZEOF_DIRENT =
        (s.inodes parent_off).size / SIZEOF_DIRENT + 1 :=
      Nat.add_div_right _ (by norm_num [SIZEOF_DIRENT])
    have hfind : find_inode («__myfs_mknod_implem» s fssize uid gid t p).2 p =
        some (s.info.inode_table + k * INODE_SIZE) := by
      simp only [«__myfs_mknod_implem», init_fs_noop h_id, h_split, h_parent, if_neg h_pdir,
        if_neg (show ¬ (s.inodes parent_off).data_block ≥ fssize by omega), hnin,
        Bool.false_eq_true, if_false, hffi,
        if_neg (show ¬ s.info.inode_table + k * INODE_SIZE ≥ fssize by omega)]
      rw [add_dir_entry_eq (by simp only [wr_other _ _ _ ha_sep]; exact ha_room)
        (by simp only [wr_other _ _ _ ha_sep]; exact ha_eptr)]
      dsimp only
      simp only [wr_other _ _ _ ha_sep]
      rw [find_inode_eq_walk]
      dsimp only
      rw [ha_tok, walk_append]
      rw [show walk _ s.info.root_inode (tokenize pp) = some parent_off from
        Eq.trans (walk_congr _ _ (by
          intro o ho
          obtain ⟨h1, h2, h3⟩ := ha_walk o ho
          refine ⟨?_, ?_⟩
          · dsimp only
            rw [wr_other _ _ _ h2, wr_other _ _ _ h1]
          · intro i
            dsimp only
            rw [wr2_other _ _ _ _ (fun hc => h3 hc.1)]))
        (by rw [← find_inode_eq_walk]; exact h_parent)]
      dsimp only
      rw [walk_cons]
      simp only [wr_same, wr_other _ _ _ ha_sep]
      rw [if_neg h_pdir]
      simp only [dirLookup]
      rw [hdiv, List.range_succ]
      rw [dirScan_append_none (dirScan_none _ (by
        intro i hi
        dsimp only
        rw [wr2_other _ _ _ _ (by
          intro hc
          exact absurd hc.2 (Nat.ne_of_lt (List.mem_range.mp hi)))]
        exact ha_absent i (List.mem_range.mp hi)))]
      rw [dirScan_cons]
      simp only [wr2_same]
      rw [htrunc, if_pos rfl]
      rfl
    have hinode : («__myfs_mknod_implem» s fssize uid gid t p).2.inodes
        (s.info.inode_table + k * INODE_SIZE) =
        ⟨S_IFREG ||| 0o644, uid, gid, 0, t, t, t, 0⟩ := by
      simp only [«__myfs_mknod_implem», init_fs_noop h_id, h_split, h_parent, if_neg h_pdir,
        if_neg (show ¬ (s.inodes parent_off).data_block ≥ fssize by omega), hnin,
        Bool.false_eq_true, if_false, hffi,
        if_neg (show ¬ s.info.inode_table + k * INODE_SIZE ≥ fssize by omega)]
      rw [add_dir_entry_eq (by simp only [wr_other _ _ _ ha_sep]; exact ha_room)
        (by simp only [wr_other _ _ _ ha_sep]; exact ha_eptr)]
      dsimp only
      rw [wr_other _ _ _ (Ne.symm ha_sep), wr_same]
    have hid3 : («__myfs_mknod_implem» s fssize uid gid t p).2.info.fs_id = FS_ID := by
      simp only [«__myfs_mknod_implem», init_fs_noop h_id, h_split, h_parent, if_neg h_pdir,
        if_neg (show ¬ (s.inodes parent_off).data_block ≥ fssize by omega), hnin,
        Bool.false_eq_true, if_false, hffi,
        if_neg (show ¬ s.info.inode_table + k * INODE_SIZE ≥ fssize by omega)]
      rw [add_dir_entry_eq (by simp only [wr_other _ _ _ ha_sep]; exact ha_room)
        (by simp only [wr_other _ _ _ ha_sep]; exact ha_eptr)]
      dsimp only
      exact h_id
    refine ⟨?_, hfind, ?_⟩
    · simp only [«__myfs_mknod_implem», init_fs_noop h_id, h_split, h_parent, if_neg h_pdir,
        if_neg (show ¬ (s.inodes parent_off).data_block ≥ fssize by omega), hnin,
        Bool.false_eq_true, if_false, hffi,
        if_neg (show ¬ s.info.inode_table + k * INODE_SIZE ≥ fssize by omega)]
      rw [add_dir_entry_eq (by simp only [wr_other _ _ _ ha_sep]; exact ha_room)
        (by simp only [wr_other _ _ _ ha_sep]; exact ha_eptr)]
    · simp only [«__myfs_getattr_implem», init_fs_noop hid3, hfind]
      rw [hinode]
      rw [if_neg (show ¬ (inode.mk (S_IFREG ||| 0o644) uid gid 0 t t t 0).mode &&& S_IFDIR ≠ 0 by dsimp only; decide),
        if_pos (show (inode.mk (S_IFREG ||| 0o644) uid gid 0 t t t 0).mode &&& S_IFREG ≠ 0 by dsimp only; decide)]
      exact ⟨_, rfl, rfl, rfl, rfl⟩
  · intro hb
    simp only [«__myfs_mknod_implem», init_fs_noop h_id, h_split, h_parent, if_neg h_pdir,
      if_neg (show ¬ (s.inodes parent_off).data_block ≥ fssize by omega), hb, if_true]


set_option maxRecDepth 20000 in
theorem C2_mknod_roundtrip_witness :
    ((«__myfs_mknod_implem» initFS FSZ 1000 1000 0 ['/', 'a']).1 = .ok () ∧
     find_inode («__myfs_mknod_implem» initFS FSZ 1000 1000 0 ['/', 'a']).2 ['/', 'a'] =
       some (initFS.info.inode_table + 1 * INODE_SIZE) ∧
     (∃ st, («__myfs_getattr_implem» («__myfs_mknod_implem» initFS FSZ 1000 1000 0 ['/', 'a']).2
         FSZ 1000 1000 0 ['/', 'a']).1 = .ok st ∧
       st.st_mode = S_IFREG ||| 0o644 ∧ st.st_size = 0 ∧ st.st_nlink = 1)) ∧
    «__myfs_mknod_implem» reuseS1 FSZ 1000 1000 0 ['/', 'a'] = (.error EEXIST, reuseS1) := by
  refine ⟨?_, ?_⟩
  · exact (C2_mknod_roundtrip initFS FSZ 1000 1000 0 ['/', 'a'] ['/'] ['a'] 64 1
      (by decide) (by decide) (by decide) (by decide) (by decide)).1
      (by decide) (by decide) (by decide) (by decide) (by decide) (by decide) (by decide)
      (by decide) (by decide) (by decide)
  · exact (C2_mknod_roundtrip reuseS1 FSZ 1000 1000 0 ['/', 'a'] ['/'] ['a'] 64 1
      (by decide) (by decide) (by decide) (by decide) (by decide)).2 (by decide)


/-! ## Claims C7 and C10 -/

theorem writeBytes_out (l : List Nat) : ∀ (f : Nat → Nat) (start a : Nat),
    (a < start ∨ start + l.length ≤ a) → writeBytes f start l a = f a := by
  induction l with
  | nil => intro f start a _; rfl
  | cons b rest ih =>
    intro f start a ha
    show writeBytes (wr f start b) (start + 1) rest a = f a
    rw [ih (wr f start b) (start + 1) a (by simp only [List.length_cons] at ha; omega)]
    exact wr_other _ _ _ (by simp only [List.length_cons] at ha; omega)

theorem writeBytes_in (l : List Nat) : ∀ (f : Nat → Nat) (start i : Nat),
    i < l.length → writeBytes f start l (start + i) = l.getD i 0 := by
  induction l with
  | nil => intro f start i hi; simp at hi
  | cons b rest ih =>
    intro f start i hi
    cases i with
    | zero =>
      show writeBytes (wr f start b) (start + 1) rest (start + 0) = b
      rw [writeBytes_out rest (wr f start b) (start + 1) (start + 0) (by omega)]
      simp [wr]
    | succ j =>
      show writeBytes (wr f start b) (start + 1) rest (start + (j + 1)) = rest.getD j 0
      have : start + (j + 1) = (start + 1) + j := by omega
      rw [this]
      exact ih (wr f start b) (start + 1) j (by simp only [List.length_cons] at hi; omega)

theorem or_bit_set (x b : Nat) : (x ||| (1 <<< b)) &&& (1 <<< b) ≠ 0 := by
  rw [Nat.one_shiftLeft, Nat.and_two_pow, Nat.testBit_or, Nat.testBit_two_pow]
  simp


/-- C7: write contract.  For an existing regular file (with the data pointer
in bounds), the call fails with EFBIG exactly when offset+length exceeds the
one-block capacity; otherwise it copies the buffer into the file's block at
the offset — allocating the block lazily when the file had none — extends
the size field to offset+length when that exceeds the current length, and
returns the length. -/
theorem C7_write_contract (s : FS) (fssize uid gid : Nat) (t : Int) (p : List Char)
    (buf : List Nat) (off ioff : Nat)
    (h_id : s.info.fs_id = FS_ID)
    (h_find : find_inode s p = some ioff)
    (h_reg : ¬ (s.inodes ioff).mode &&& S_IFREG = 0) :
    (∀ blk, (s.inodes ioff).data_block = blk → blk ≠ 0 → blk + off < fssize →
      ((off + buf.length > BLOCK_SIZE →
        «__myfs_write_implem» s fssize uid gid t p buf off = (.error EFBIG, s)) ∧
       (off + buf.length ≤ BLOCK_SIZE →
        («__myfs_write_implem» s fssize uid gid t p buf off).1 = .ok buf.length ∧
        (∀ i < buf.length,
          («__myfs_write_implem» s fssize uid gid t p buf off).2.fileBytes (blk + off + i) =
            buf.getD i 0) ∧
        (∀ a, (a < blk + off ∨ blk + off + buf.length ≤ a) →
          («__myfs_write_implem» s fssize uid gid t p buf off).2.fileBytes a = s.fileBytes a) ∧
        ((«__myfs_write_implem» s fssize uid gid t p buf off).2.inodes ioff).size =
          (if off + buf.length > (s.inodes ioff).size then off + buf.length
           else (s.inodes ioff).size) ∧
        ((«__myfs_write_implem» s fssize uid gid t p buf off).2.inodes ioff).data_block = blk))) ∧
    ((s.inodes ioff).data_block = 0 →
      ∀ bn, scanBlocks s (List.range s.info.max_data_blocks) = some bn →
      s.info.free_block_bitmap < fssize →
      s.info.data_blocks + bn * BLOCK_SIZE + off < fssize →
      off + buf.length ≤ BLOCK_SIZE →
      ((«__myfs_write_implem» s fssize uid gid t p buf off).1 = .ok buf.length ∧
       ((«__myfs_write_implem» s fssize uid gid t p buf off).2.inodes ioff).data_block =
         s.info.data_blocks + bn * BLOCK_SIZE ∧
       blockBitSet («__myfs_write_implem» s fssize uid gid t p buf off).2 bn ∧
       (∀ i < buf.length,
         («__myfs_write_implem» s fssize uid gid t p buf off).2.fileBytes
           (s.info.data_blocks + bn * BLOCK_SIZE + off + i) = buf.getD i 0) ∧
       ((«__myfs_write_implem» s fssize uid gid t p buf off).2.inodes ioff).size =
         (if off + buf.length > (s.inodes ioff).size then off + buf.length
          else (s.inodes ioff).size))) := by
  refine ⟨?_, ?_⟩
  · intro blk h_blk h_nz h_ptr
    refine ⟨?_, ?_⟩
    · intro h_big
      simp only [«__myfs_write_implem», init_fs_noop h_id, h_find, if_neg h_reg, h_blk,
        if_neg h_nz, if_neg (show ¬ blk + off ≥ fssize by omega),
        if_pos (show off + buf.length > BLOCK_SIZE from h_big)]
    · intro h_fit
      simp only [«__myfs_write_implem», init_fs_noop h_id, h_find, if_neg h_reg, h_blk,
        if_neg h_nz, if_neg (show ¬ blk + off ≥ fssize by omega),
        if_neg (show ¬ off + buf.length > BLOCK_SIZE by omega)]
      try dsimp only
      refine ⟨?_, ?_, ?_, ?_, ?_⟩
      · trivial
      · intro i hi
        exact writeBytes_in buf s.fileBytes (blk + off) i hi
      · intro a ha
        exact writeBytes_out buf s.fileBytes (blk + off) a ha
      · first
        | trivial
        | rw [wr_same]
      · first
        | trivial
        | exact h_blk
        | (rw [wr_same]; try exact h_blk)
  · intro h_zero bn h_scan h_bb h_ptr h_fit
    have hffd := find_free_data_block_eq_some h_bb h_scan
    simp only [«__myfs_write_implem», init_fs_noop h_id, h_find, if_neg h_reg,
      if_pos h_zero, hffd, if_neg (show ¬ s.info.data_blocks + bn * BLOCK_SIZE + off ≥ fssize by omega),
      if_neg (show ¬ off + buf.length > BLOCK_SIZE by omega)]
    try dsimp only
    simp only [wr_same]
    refine ⟨?_, ?_, ?_, ?_, ?_⟩
    · trivial
    · first
      | trivial
      | rw [wr_same]
    · unfold blockBitSet
      try dsimp only
      try rw [wr_same]
      first
      | exact or_bit_set _ _
      | trivial
    · intro i hi
      exact writeBytes_in buf _ (s.info.data_blocks + bn * BLOCK_SIZE + off) i hi
    · first
      | trivial
      | rw [wr_same]

/-- C10: the failed over-capacity write on a block-less file is not atomic.
When write is called on an existing regular file with data_block == 0 and
offset+length exceeds BLOCK_SIZE, the call fails with EFBIG, yet it has
already allocated a data block: the file's data_block field is the freshly
allocated nonzero block offset and the corresponding block-bitmap bit is
set. -/
theorem C10_write_efbig_leaks_block (s : FS) (fssize uid gid : Nat) (t : Int) (p : List Char)
    (buf : List Nat) (off ioff bn : Nat)
    (h_id : s.info.fs_id = FS_ID)
    (h_find : find_inode s p = some ioff)
    (h_reg : ¬ (s.inodes ioff).mode &&& S_IFREG = 0)
    (h_zero : (s.inodes ioff).data_block = 0)
    (h_scan : scanBlocks s (List.range s.info.max_data_blocks) = some bn)
    (h_bb : s.info.free_block_bitmap < fssize)
    (h_ptr : s.info.data_blocks + bn * BLOCK_SIZE + off < fssize)
    (h_big : off + buf.length > BLOCK_SIZE)
    (h_dbpos : 0 < s.info.data_blocks) :
    («__myfs_write_implem» s fssize uid gid t p buf off).1 = .error EFBIG ∧
    ((«__myfs_write_implem» s fssize uid gid t p buf off).2.inodes ioff).data_block =
      s.info.data_blocks + bn * BLOCK_SIZE ∧
    ((«__myfs_write_implem» s fssize uid gid t p buf off).2.inodes ioff).data_block ≠ 0 ∧
    blockBitSet («__myfs_write_implem» s fssize uid gid t p buf off).2 bn := by
  have hffd := find_free_data_block_eq_some h_bb h_scan
  simp only [«__myfs_write_implem», init_fs_noop h_id, h_find, if_neg h_reg,
    if_pos h_zero, hffd, if_neg (show ¬ s.info.data_blocks + bn * BLOCK_SIZE + off ≥ fssize by omega),
    if_pos (show off + buf.length > BLOCK_SIZE from h_big)]
  try dsimp only
  simp only [wr_same]
  refine ⟨?_, ?_, ?_, ?_⟩
  · trivial
  · first
    | trivial
    | rw [wr_same]
  · first
    | omega
    | (try dsimp only
       try rw [wr_same]
       omega)
  · unfold blockBitSet
    try dsimp only
    try rw [wr_same]
    first
    | exact or_bit_set _ _
    | trivial

set_option maxRecDepth 40000 in
theorem C7_write_contract_witness :
    («__myfs_write_implem» reuseS1 FSZ 1000 1000 0 ['/', 'a'] [104, 105] 0).1 =
      .ok ([104, 105] : List Nat).length ∧
    ((«__myfs_write_implem» reuseS1 FSZ 1000 1000 0 ['/', 'a'] [104, 105] 0).2.inodes 764).data_block =
      reuseS1.info.data_blocks + 1 * BLOCK_SIZE ∧
    blockBitSet («__myfs_write_implem» reuseS1 FSZ 1000 1000 0 ['/', 'a'] [104, 105] 0).2 1 ∧
    (∀ i < ([104, 105] : List Nat).length,
      («__myfs_write_implem» reuseS1 FSZ 1000 1000 0 ['/', 'a'] [104, 105] 0).2.fileBytes
        (reuseS1.info.data_blocks + 1 * BLOCK_SIZE + 0 + i) = ([104, 105] : List Nat).getD i 0) ∧
    ((«__myfs_write_implem» reuseS1 FSZ 1000 1000 0 ['/', 'a'] [104, 105] 0).2.inodes 764).size =
      (if 0 + ([104, 105] : List Nat).length > (reuseS1.inodes 764).size
       then 0 + ([104, 105] : List Nat).length else (reuseS1.inodes 764).size) :=
  (C7_write_contract reuseS1 FSZ 1000 1000 0 ['/', 'a'] [104, 105] 0 764
      (by decide) (by decide) (by decide)).2
    (by decide) 1 (by decide) (by decide) (by decide) (by decide)

set_option maxRecDepth 40000 in
theorem C10_write_efbig_leaks_block_witness :
    («__myfs_write_implem» reuseS1 FSZ 1000 1000 0 ['/', 'a'] (List.replicate 5 7) 4093).1 =
      .error EFBIG ∧
    ((«__myfs_write_implem» reuseS1 FSZ 1000 1000 0 ['/', 'a'] (List.replicate 5 7) 4093).2.inodes
      764).data_block = reuseS1.info.data_blocks + 1 * BLOCK_SIZE ∧
    ((«__myfs_write_implem» reuseS1 FSZ 1000 1000 0 ['/', 'a'] (List.replicate 5 7) 4093).2.inodes
      764).data_block ≠ 0 ∧
    blockBitSet («__myfs_write_implem» reuseS1 FSZ 1000 1000 0 ['/', 'a'] (List.replicate 5 7) 4093).2 1 :=
  C10_write_efbig_leaks_block reuseS1 FSZ 1000 1000 0 ['/', 'a'] (List.replicate 5 7) 4093 764 1
    (by decide) (by decide) (by decide) (by decide) (by decide) (by decide) (by decide)
    (by decide) (by decide)

end MyFS

namespace OldFS

/-! ## C8: the read clipping claim against the first-generation read code -/

/-- a minimal first-generation volume: the root directory at offset 64 holds
one entry `a` pointing to a file record at offset 500 whose data is the
single byte 65 at offset 600; the byte 66 at offset 601 belongs to no file. -/
def c8vol : Vol :=
  { header := ⟨64, 1000⟩
    files := fun o => if o = 500 then ⟨600, 1, 0, 0⟩ else ⟨0, 0, 0, 0⟩
    dirs := fun o =>
      if o = 64 then
        { offset := 64, num_links := 2, access_time := 0, mod_time := 0, entry_count := 1,
          entries := fun i => if i = 0 then ⟨500, ['a'], FILE_TYPE⟩ else ⟨0, [], 2⟩ }
      else
        { offset := 0, num_links := 0, access_time := 0, mod_time := 0, entry_count := 0,
          entries := fun _ => ⟨0, [], 2⟩ }
    bytes := fun o => if o = 600 then 65 else if o = 601 then 66 else 0 }

/-- C8: read is NOT clipped to the file size.  The claim says read returns at
most min(n, s - offset) bytes; but the source computes
`read_bytes = MAX(max_bytes, size)` (the MAX macro instead of MIN), so
reading n = 2 bytes at offset 0 from the 1-byte file `/a` returns 2 bytes —
the file's single byte 65 followed by the out-of-file byte 66 — although
min(2, 1 - 0) = 1.  This refutes the clipping sentence of the claim. -/
theorem C8_read_not_clipped :
    («__myfs_read_implem» c8vol 1000 ['/', 'a'] 2 0 7).1 = .ok (2, [65, 66]) ∧
    (c8vol.files 500).size = 1 ∧
    ¬ 2 ≤ min 2 ((c8vol.files 500).size - 0) := by
  refine ⟨by decide, by decide, by decide⟩

end OldFS

namespace MyFS

/-! ## C5: the current generation's rmdir/rename/statfs are stubs

`__myfs_rmdir_implem`, `__myfs_rename_implem` and `__myfs_statfs_implem` of
the current generation of implementation.c are stubs: `return -1` with
`*errnoptr` never set and the buffer untouched.  They are embedded as the
constant failure on the current data model. -/

/-- `__myfs_rmdir_implem` of the current generation (implementation.c lines
2336-2340): `return -1`, nothing else. -/
def «__myfs_rmdir_implem» (s : FS) (fssize : Nat) (p : List Char) : Int × FS := (-1, s)

/-- `__myfs_rename_implem` of the current generation (implementation.c lines
2520-2524): `return -1`, nothing else. -/
def «__myfs_rename_implem» (s : FS) (fssize : Nat) (a b : List Char) : Int × FS := (-1, s)

/-- `__myfs_statfs_implem` of the current generation (implementation.c lines
2715-2719): `return -1`, nothing else. -/
def «__myfs_statfs_implem» (s : FS) (fssize : Nat) : Int × FS := (-1, s)

/-- does the directory hold any entry besides `.` and `..`?  (the observable
"non-empty" of the claims, over the current data model). -/
def hasRealEntry (s : FS) (nd : inode) : Bool :=
  (List.range (nd.size / SIZEOF_DIRENT)).any
    (fun i => decide ((s.dirents nd.data_block i).name ≠ ['.'] ∧
                      (s.dirents nd.data_block i).name ≠ ['.', '.']))

/-- the volume after `mkdir("/d")` on a fresh mount: `/d` is an existing
directory holding only `.` and `..`. -/
def dS : FS := («__myfs_mkdir_implem» initFS FSZ 1000 1000 0 ['/', 'd']).2

set_option maxRecDepth 40000 in
/-- C5: the remove-directory contract is not implemented in the staged
program.  The current generation's `__myfs_rmdir_implem` (implementation.c
lines 2336-2340) is `return -1`: every call fails with the buffer unchanged,
so the claimed success path — an empty directory removed from its parent,
its data block and its inode freed — never occurs on any input.  In
particular the call fails on the volume `dS`, where `/d` is an existing
directory holding only `.` and `..`. -/
theorem C5_rmdir_never_succeeds :
    (∀ (s : FS) (fssize : Nat) (p : List Char),
      «__myfs_rmdir_implem» s fssize p = (-1, s)) ∧
    find_inode dS ['/', 'd'] = some 764 ∧
    (dS.inodes 764).mode &&& S_IFDIR ≠ 0 ∧
    hasRealEntry dS (dS.inodes 764) = false ∧
    «__myfs_rmdir_implem» dS FSZ ['/', 'd'] = (-1, dS) := by
  refine ⟨fun s fssize p => rfl, by decide, by decide, by decide, rfl⟩

end MyFS

namespace OldFS

/-! ## C6 and C9: the first-generation rename and statfs

The claims for rename and statfs cite the first-generation code
(implementation.c lines 868-972 and 1293-1342); the current generation's
functions are the stubs embedded above.  The first-generation functions are
embedded here on the `Vol` model. -/

def NAME_MAX_LENGTH : Nat := 255

/-- `sizeof(myfs_dir_entry)`: 8 (offset) + 256 (name) + 4 (type), padded to
an 8-byte boundary. -/
def SIZEOF_MYFS_DIR_ENTRY : Nat := 272

/-- the first generation's `#define BLOCK_SIZE 1024`. -/
def BLOCK_SIZE : Nat := 1024

def ENAMETOOLONG : Nat := 36

/-- the token walk of `get_parent_dir` (implementation.c lines 383-392):
every component before the last must resist to a directory entry. -/
def get_parent_walk (v : Vol) : Nat → List Char → List (List Char) →
    Option (Nat × List Char)
  | cur, tok, [] => some (cur, tok.take 255)
  | cur, tok, nxt :: rest =>
    match find_entry (v.dirs cur) tok with
    | none => none
    | some (off, ty) =>
      if ty = DIR_TYPE then get_parent_walk v off nxt rest else none

/-- `get_parent_dir(fsptr, path, filename)` of the first generation
(implementation.c lines 357-398): for "/" the root itself with name "/";
otherwise the walk over the path truncated to 255 characters
(`strncpy(path_cpy, path, 255)`) stops at the last component, which is the
returned name (itself truncated to 255 characters).  A path with no
component makes the C code pass a NULL token to strncpy; that run is
modelled as failure. -/
def get_parent_dir (v : Vol) (p : List Char) : Option (Nat × List Char) :=
  if p = ['/'] then some (v.header.root_dir_offset, ['/'])
  else
    match MyFS.tokenize (p.take 255) with
    | [] => none
    | t :: rest => get_parent_walk v v.header.root_dir_offset t rest

mutual

/-- `__myfs_rename_implem` of the first generation (implementation.c lines
868-972).  The C function is recursive — an existing directory destination
is handled by recursively renaming every child of the source into the
destination (lines 907-928) — so the embedding carries a fuel bound on the
recursion depth; exhausted fuel yields EIO, an arm no terminating C run
reaches once the fuel exceeds the run's recursion depth.  An existing
destination of the other type fails EISDIR; an existing regular-file
destination is overwritten (data cleared, record copied); then the source
entry is removed from its parent (shift left) and appended to the
destination parent under the destination name, reusing the source's
offset. -/
def «__myfs_rename_implem» : Nat → Vol → Nat → List Char → List Char →
    Except Nat Unit × Vol
  | 0, v, _, _, _ => (.error MyFS.EIO, v)
  | f + 1, v, fssize, pf, pt =>
    match get_parent_dir v pf with
    | none => (.error MyFS.ENOENT, v)
    | some (fpoff, fname) =>
      match get_parent_dir v pt with
      | none => (.error MyFS.ENOENT, v)
      | some (tpoff, tname) =>
        match find_entry (v.dirs fpoff) fname with
        | none => (.error MyFS.ENOENT, v)
        | some (foff, fty) =>
          match (match find_entry (v.dirs tpoff) tname with
                 | none => Except.ok v
                 | some (toff, tty) =>
                   if tty ≠ fty then Except.error (MyFS.EISDIR, v)
                   else if fty = DIR_TYPE then
                     match renameMergeChildren f v fssize pf pt foff 0 with
                     | (.ok _, v1) => Except.ok v1
                     | (.error e, v1) => Except.error (e, v1)
                   else
                     Except.ok { v with
                       bytes := fun o =>
                         if (v.files toff).data_offset ≤ o ∧
                            o < (v.files toff).data_offset + (v.files toff).size
                         then 0 else v.bytes o
                       files := MyFS.wr v.files toff (v.files foff) }) with
          | .error ev => (.error ev.1, ev.2)
          | .ok v1 =>
            match (List.range (v1.dirs fpoff).entry_count).find?
                (fun i => ((v1.dirs fpoff).entries i).name = fname) with
            | none => (.error MyFS.ENOENT, v1)
            | some idx =>
              let pd := v1.dirs fpoff
              let pd2 : myfs_dir :=
                { pd with
                  entry_count := pd.entry_count - 1,
                  entries := fun j =>
                    if idx ≤ j ∧ j < pd.entry_count - 1 then pd.entries (j + 1)
                    else pd.entries j }
              let v2 := { v1 with dirs := MyFS.wr v1.dirs fpoff pd2 }
              if fssize / SIZEOF_MYFS_DIR_ENTRY ≤ (v2.dirs tpoff).entry_count then
                (.error MyFS.ENOSPC, v2)
              else
                let td := v2.dirs tpoff
                let td2 : myfs_dir :=
                  { td with
                    entry_count := td.entry_count + 1,
                    entries := fun j =>
                      if j = td.entry_count then ⟨foff, tname.take 255, fty⟩
                      else td.entries j }
                (.ok (), { v2 with dirs := MyFS.wr v2.dirs tpoff td2 })

/-- the child-merge loop of the first-generation rename (implementation.c
lines 911-928): iterate `i` against the source directory's current
`entry_count`, building the child paths by `snprintf("%s/%s", ...)` into
512-byte buffers (truncating; the following `strlen >= 512` check can then
never fire), and recursively rename each child; a failing child aborts the
call, keeping the partial merge. -/
def renameMergeChildren : Nat → Vol → Nat → List Char → List Char → Nat → Nat →
    Except Nat Unit × Vol
  | 0, v, _, _, _, _, _ => (.error MyFS.EIO, v)
  | f + 1, v, fssize, pf, pt, fdoff, i =>
    if i < (v.dirs fdoff).entry_count then
      let child := (v.dirs fdoff).entries i
      let cf := (pf ++ '/' :: child.name).take 511
      let ct := (pt ++ '/' :: child.name).take 511
      if 512 ≤ cf.length ∨ 512 ≤ ct.length then (.error ENAMETOOLONG, v)
      else
        match «__myfs_rename_implem» f v fssize cf ct with
        | (.error e, v1) => (.error e, v1)
        | (.ok _, v1) => renameMergeChildren f v1 fssize pf pt fdoff (i + 1)
    else (.ok (), v)

end

/-- the statvfs fields the first-generation statfs fills. -/
structure statvfsRec where
  f_bsize : Nat
  f_frsize : Nat
  f_blocks : Nat
  f_bfree : Nat
  f_bavail : Nat
  f_namemax : Nat
deriving DecidableEq

/-- the block-usage probe of the first-generation statfs (implementation.c
lines 1314-1329): a 1024-byte block is used exactly when some byte in it is
non-zero. -/
def blockUsed (v : Vol) (b : Nat) : Bool :=
  (List.range BLOCK_SIZE).any (fun i => decide (v.bytes (b * BLOCK_SIZE + i) ≠ 0))

/-- `__myfs_statfs_implem` of the first generation (implementation.c lines
1293-1342): scans the raw buffer in 1024-byte blocks, counting a block free
exactly when all its bytes are zero; there is no bitmap in this data model.
`Vol.bytes` is the raw-byte view of the buffer, so a volume used with this
function must carry its metadata bytes in `bytes` as well. -/
def «__myfs_statfs_implem» (v : Vol) (fssize : Nat) : Except Nat statvfsRec × Vol :=
  let total := fssize / BLOCK_SIZE
  let used := ((List.range total).filter (fun b => blockUsed v b)).length
  let free := total - used
  (.ok { f_bsize := BLOCK_SIZE, f_frsize := BLOCK_SIZE, f_blocks := total,
         f_bfree := free, f_bavail := free, f_namemax := NAME_MAX_LENGTH }, v)

/-- a first-generation volume for C6: the root (offset 64) holds the empty
directory `d` (offset 300) and the non-empty directory `e` (offset 400,
holding the file `y` at offset 500). -/
def rnVol : Vol :=
  { header := ⟨64, 5000⟩
    files := fun o => if o = 500 then ⟨600, 3, 0, 0⟩ else ⟨0, 0, 0, 0⟩
    dirs := fun o =>
      if o = 64 then
        { offset := 64, num_links := 2, access_time := 0, mod_time := 0, entry_count := 2,
          entries := fun i =>
            if i = 0 then ⟨300, ['d'], DIR_TYPE⟩
            else if i = 1 then ⟨400, ['e'], DIR_TYPE⟩
            else ⟨0, [], 2⟩ }
      else if o = 300 then
        { offset := 300, num_links := 2, access_time := 0, mod_time := 0, entry_count := 0,
          entries := fun _ => ⟨0, [], 2⟩ }
      else if o = 400 then
        { offset := 400, num_links := 2, access_time := 0, mod_time := 0, entry_count := 1,
          entries := fun i => if i = 0 then ⟨500, ['y'], FILE_TYPE⟩ else ⟨0, [], 2⟩ }
      else
        { offset := 0, num_links := 0, access_time := 0, mod_time := 0, entry_count := 0,
          entries := fun _ => ⟨0, [], 2⟩ }
    bytes := fun _ => 0 }

set_option maxRecDepth 40000 in
/-- C6: a non-empty directory destination IS overwritten.  The current
generation's rename is the `return -1` stub, implementing none of the
claimed checks; and the cited first-generation rename (implementation.c
lines 868-972), far from rejecting a non-empty directory destination,
recursively merges into it and then moves the source under the destination
name: `rename("/d", "/e")` on `rnVol` — destination `/e` an existing
directory holding the entry `y` — returns success, and afterwards the root
holds two entries named `e` (the original at offset 400 and the moved source
at offset 300).  This refutes the claim's sentence that such a call fails
leaving both trees unchanged. -/
theorem C6_rename_overwrites_nonempty_dir :
    (∀ (s : MyFS.FS) (fssize : Nat) (a b : List Char),
      MyFS.«__myfs_rename_implem» s fssize a b = (-1, s)) ∧
    find_entry (rnVol.dirs 64) ['e'] = some (400, DIR_TYPE) ∧
    (rnVol.dirs 400).entry_count = 1 ∧
    ((rnVol.dirs 400).entries 0).name = ['y'] ∧
    («__myfs_rename_implem» 2 rnVol 10000 ['/', 'd'] ['/', 'e']).1 = .ok () ∧
    ((«__myfs_rename_implem» 2 rnVol 10000 ['/', 'd'] ['/', 'e']).2.dirs 64).entry_count = 2 ∧
    (((«__myfs_rename_implem» 2 rnVol 10000 ['/', 'd'] ['/', 'e']).2.dirs 64).entries 0).name = ['e'] ∧
    (((«__myfs_rename_implem» 2 rnVol 10000 ['/', 'd'] ['/', 'e']).2.dirs 64).entries 0).offset = 400 ∧
    (((«__myfs_rename_implem» 2 rnVol 10000 ['/', 'd'] ['/', 'e']).2.dirs 64).entries 1).name = ['e'] ∧
    (((«__myfs_rename_implem» 2 rnVol 10000 ['/', 'd'] ['/', 'e']).2.dirs 64).entries 1).offset = 300 := by
  refine ⟨fun s fssize a b => rfl, by decide, by decide, by decide, by decide, by decide,
    by decide, by decide, by decide, by decide⟩

/-- a first-generation volume for C9, with its raw bytes filled in:
fssize 4096 makes four 1024-byte blocks.  Block 0 holds the header and the
record of the file `f` (non-zero bytes at offsets 0 and 500), block 1 holds
the root directory record (non-zero byte at 1024), block 2 (bytes
2048-3071) is the data of the allocated file `f` — size 1024, content all
zeros — and block 3 is unused. -/
def c9vol : Vol :=
  { header := ⟨64, 3072⟩
    files := fun o => if o = 500 then ⟨2048, 1024, 0, 0⟩ else ⟨0, 0, 0, 0⟩
    dirs := fun o =>
      if o = 64 then
        { offset := 64, num_links := 2, access_time := 0, mod_time := 0, entry_count := 1,
          entries := fun i => if i = 0 then ⟨500, ['f'], FILE_TYPE⟩ else ⟨0, [], 2⟩ }
      else
        { offset := 0, num_links := 0, access_time := 0, mod_time := 0, entry_count := 0,
          entries := fun _ => ⟨0, [], 2⟩ }
    bytes := fun o => if o = 0 then 64 else if o = 500 then 8 else if o = 1024 then 1 else 0 }

set_option maxRecDepth 100000 in
/-- C9: the program does not report capacity minus the bitmap's set bits.
The current generation's statfs is the `return -1` stub: it reports nothing
on any volume.  The cited first-generation statfs (implementation.c lines
1293-1342) has no bitmap at all: it counts a 1024-byte block as free exactly
when all its bytes are zero, so the all-zero data block of the allocated
file `f` on `c9vol` is counted free — of four blocks three are occupied
(header+records, root record, file data) yet the call reports
`f_bfree = 2`. -/
theorem C9_statfs_counts_zero_blocks_free :
    (∀ (s : MyFS.FS) (fssize : Nat), MyFS.«__myfs_statfs_implem» s fssize = (-1, s)) ∧
    (c9vol.files 500).data_offset = 2 * BLOCK_SIZE ∧
    (c9vol.files 500).size = BLOCK_SIZE ∧
    (∀ i < BLOCK_SIZE, c9vol.bytes (2 * BLOCK_SIZE + i) = 0) ∧
    blockUsed c9vol 2 = false ∧
    («__myfs_statfs_implem» c9vol 4096).1 = .ok ⟨1024, 1024, 4, 2, 2, 255⟩ := by
  refine ⟨fun s fssize => rfl, by decide, by decide, by decide, by decide, by decide⟩

end OldFS
